import Mathlib

/-!
# SQLCluster node bootstrap (`level4/main.go`)

A shallow embedding of `main`: flag parsing, verbosity set-up, storage
preparation, command registration, the goroutine that builds the request
server and the cluster transport, and the signal wait that ends the process.

Collaborators (`flag`, `os`, `debuglog`, `raft`, `server`, `cluster`,
`os/signal`) are not part of the file: what they return is read from an
environment `Env`, and every call `main` makes is recorded in a trace.
The part of `main` before the `go` statement is sequential (`startup`).
After it the main goroutine and the spawned goroutine run concurrently; a
schedule (`List Choice`) says which of them moves next and when a signal is
delivered.  Every call of the spawned goroutine, every return of such a
call and the `os.Exit` inside `log.Fatal` is a move of its own, so the main
goroutine can receive a signal and return between any two of them.
-/

namespace Level4

/-! ## Values -/

/-- A Go `error`, by its message. -/
abbrev Error := String

/-- The two signals `main` subscribes to. -/
inductive Signal where
  | SIGINT
  | SIGTERM
  deriving DecidableEq, Repr

/-- The handle returned by `server.New()`. -/
structure Server where
  id : Nat
  deriving DecidableEq, Repr

/-- The handle returned by `cluster.New(...)`. -/
structure Cluster where
  id : Nat
  deriving DecidableEq, Repr

/-- The method value `s.ListenAndServe`, bound to its receiver `s`. -/
inductive ServeFn where
  | ListenAndServe (s : Server)
  deriving DecidableEq, Repr

/-- The two standard streams a text can be written to. -/
inductive File where
  | Stdout
  | Stderr
  deriving DecidableEq, Repr

/-- A Go result pair `(v, err)`. -/
inductive Result (α : Type) where
  | ok (v : α)
  | err (e : Error)
  deriving DecidableEq, Repr

/-- Go `int` is 64 bits wide on the platforms the cluster runs on. -/
def intBits : Nat := 64

/-- Smallest `int`. -/
def minInt : Int := -(2 ^ (intBits - 1))

/-- Largest `int`. -/
def maxInt : Int := 2 ^ (intBits - 1) - 1

/-- Two's-complement wrap-around of a mathematical integer into `int`. -/
def wrapInt (x : Int) : Int := (x + 2 ^ (intBits - 1)) % 2 ^ intBits - 2 ^ (intBits - 1)

/-! ## Trace events -/

/-- One observable action of the process. -/
inductive Event where
  /-- The call `flag.Parse()`. -/
  | flagParse
  /-- The call `fmt.Fprintf(w, format, args...)` inside `flag.Usage`. -/
  | fprintf (w : File) (format : String) (args : List String)
  /-- The call `flag.PrintDefaults()` inside `flag.Usage`. -/
  | printDefaults
  /-- The call `os.Exit(code)`, also the one inside `log.Fatal`, `log.Fatalf` and
  `flag.Parse`. -/
  | osExit (code : Nat)
  /-- The call `debuglog.SetVerbose(b)`. -/
  | setVerbose (b : Bool)
  /-- The call `raft.SetLogLevel(level)`. -/
  | setLogLevel (level : Int)
  /-- The call `os.MkdirAll(path, perm)` with the error it returned. -/
  | mkdirAll (path : String) (perm : Nat) (err : Option Error)
  /-- The logging half of `log.Fatalf(format, err)`. -/
  | logFatalf (format : String) (err : Error)
  /-- The call `log.Printf(format, arg)`. -/
  | logPrintf (format : String) (arg : String)
  /-- The call `os.Chdir(path)` with the error it returned. -/
  | chdir (path : String) (err : Option Error)
  /-- The call `raft.RegisterCommand(&db.Action{})`. -/
  | registerCommand
  /-- The `go` statement: the start-up goroutine is created. -/
  | go
  /-- Entry of `server.New()`. -/
  | serverNew
  /-- Return of `server.New()`. -/
  | serverNewRet (r : Result Server)
  /-- Entry of `cluster.New(directory, listen, serve, s)`. -/
  | clusterNew (directory listen : String) (serve : ServeFn) (s : Server)
  /-- Return of `cluster.New`. -/
  | clusterNewRet (r : Result Cluster)
  /-- Entry of `c.ListenAndServe(join)`. -/
  | listenAndServe (c : Cluster) (join : String)
  /-- Return of `c.ListenAndServe(join)`. -/
  | listenAndServeRet (c : Cluster) (err : Option Error)
  /-- Entry of `log.Fatal(err)`: the error is written to the log. -/
  | logFatal (err : Error)
  /-- The call `signal.Notify(sigchan, sigs...)`. -/
  | signalNotify (sigs : List Signal)
  /-- The receive `<-sigchan` completes with `sig`. -/
  | sigchanRecv (sig : Signal)
  /-- The function `main` returns. -/
  | mainReturn
  /-- A signal nobody subscribed to yet takes its default action. -/
  | defaultAction (sig : Signal)
  deriving DecidableEq, Repr

/-! ## Environment -/

/-- What `flag.Parse` finds in `os.Args[1:]`: input the flag package
rejects (an undefined flag, a missing or unparsable value), a request for
help (`-h` or `-help`, which are not registered), or the values given for
the four registered flags, `none` for a flag that is not on the command
line, and the positional arguments left over. -/
inductive CommandLine where
  | malformed
  | help
  | flags (v : Option Int) (l join d : Option String) (positional : List String)
  deriving DecidableEq, Repr

/-- The variables of `main` once `flag.Parse` has returned, with `flag.NArg()`. -/
structure Config where
  verbose : Int
  listen : String
  join : String
  directory : String
  nArg : Nat
  deriving DecidableEq, Repr

/-- The two `os` calls of `main`, over a state `σ` of the operating system. -/
structure OS (σ : Type) where
  MkdirAll : String → Nat → σ → Option Error × σ
  Chdir : String → σ → Option Error × σ

/-- Everything outside `main` that decides how an execution goes. -/
structure Env (σ : Type) where
  /-- The value of `os.Args[0]`. -/
  arg0 : String
  /-- The function `filepath.Dir`. -/
  filepathDir : String → String
  /-- The function `filepath.Base`. -/
  filepathBase : String → String
  /-- The rest of `os.Args`, as `flag.Parse` reads it. -/
  commandLine : CommandLine
  /-- The operating system. -/
  os : OS σ
  /-- Its state when the process starts. -/
  fs : σ
  /-- What `server.New()` returns. -/
  serverNew : Result Server
  /-- What `cluster.New` returns. -/
  clusterNew : String → String → ServeFn → Server → Result Cluster
  /-- What `c.ListenAndServe(join)` does: `none` when it never returns,
  `some err` when it returns `err`. -/
  listenAndServe : Cluster → String → Option (Option Error)

/-! ## The sequential part of `main` -/

/-- The format string of the usage text (lines 30-55). -/
def usageFormat : String :=
  "Usage: %s [options]\n\nRun a highly-available SQLite.\n\nBy default, SQLCluster will listen on a TCP port. However, if you\nspecify a listen address that begins with a / or ., that will be\ninterpeted as Unix path for SQLCluster to listen on.\n\nSo for example, you could run:\n\n  %s -d /tmp/sqlcluster/node0 -l /tmp/server.sock\n\nAnd SQLCluster would listen at /tmp/server.sock.\n\n(Note that Octopus will run using Unix sockets only, but it will\nprobably be more convient for you to develop using TCP.)\n\nRun a cluster as follows:\n\n  cd %s\n  %s -d /tmp/sqlcluster/node0 &\n  %s -d /tmp/sqlcluster/node1 -l 127.0.0.1:4001 --join 127.0.0.1:4000 &\n  %s -d /tmp/sqlcluster/node2 -l 127.0.0.1:4002 --join 127.0.0.1:4000\n\nOPTIONS:\n"

/-- The closure assigned to `flag.Usage` (lines 27-57). -/
def usage {σ : Type} (env : Env σ) : List Event :=
  let dir := env.filepathDir env.arg0
  let base := "./" ++ env.filepathBase env.arg0
  [.fprintf .Stderr usageFormat [env.arg0, base, dir, base, base, base], .printDefaults]

/-- The four flag registrations (lines 22-25) followed by `flag.Parse()`:
a flag that is not given keeps its default, `-v` takes an `int`, and a
command line on which `flag.Parse` does not return gives `none`. -/
def flagParse : CommandLine → Option Config
  | .malformed => none
  | .help => none
  | .flags v l join d positional =>
    let verbose := v.getD 3
    if minInt ≤ verbose ∧ verbose ≤ maxInt then
      some
        { verbose := verbose
          listen := l.getD "127.0.0.1:4000"
          join := join.getD ""
          directory := d.getD "/tmp/sqlcluster"
          nArg := positional.length }
    else none

/-- The status with which `flag.Parse` ends the process when it does not
return: `flag.CommandLine` is an `ExitOnError` flag set, which exits with
status 0 after a request for help and with status 2 after an error. -/
def flagExitStatus : CommandLine → Nat
  | .help => 0
  | _ => 2

/-- The permission argument `os.ModeDir|0755`. -/
def dirPerm : Nat := 2 ^ 31 + 0o755

/-- Storage preparation (lines 69-76): `os.MkdirAll`, the log line,
`os.Chdir`, each error fatal.  Returns the events, the state of the
operating system afterwards and whether the process is still running. -/
def prepare {σ : Type} (os : OS σ) (directory : String) (fs : σ) : List Event × σ × Bool :=
  match os.MkdirAll directory dirPerm fs with
  | (some err, fs1) =>
    ([.mkdirAll directory dirPerm (some err),
      .logFatalf "Error while creating storage directory: %s\n" err, .osExit 1], fs1, false)
  | (none, fs1) =>
    match os.Chdir directory fs1 with
    | (some err, fs2) =>
      ([.mkdirAll directory dirPerm none, .logPrintf "Changing directory to %s" directory,
        .chdir directory (some err),
        .logFatalf "Error while changing to storage directory: %s\n" err, .osExit 1], fs2, false)
    | (none, fs2) =>
      ([.mkdirAll directory dirPerm none, .logPrintf "Changing directory to %s" directory,
        .chdir directory none], fs2, true)

/-- Where the main goroutine is. -/
inductive MainPC where
  /-- It called `os.Exit(code)` before the `go` statement. -/
  | exited (code : Nat)
  /-- It is past the `go` statement and has not yet called `signal.Notify`. -/
  | subscribing
  /-- It has called `signal.Notify` and has not yet reached `<-sigchan`. -/
  | subscribed
  /-- It is blocked in `<-sigchan`. -/
  | waiting
  /-- The receive completed; the return from `main` is next. -/
  | received
  /-- It returned from `main`, which ends the process. -/
  | returned
  /-- The process was ended by the default action of a signal. -/
  | killed (sig : Signal)
  deriving DecidableEq, Repr

/-- Where the goroutine of lines 81-95 is. -/
inductive UnitPC where
  /-- The `go` statement was not reached. -/
  | absent
  /-- Created, `server.New` not yet called. -/
  | spawned
  /-- Inside `server.New()`. -/
  | inServerNew
  /-- The call `server.New()` returned `r`; the check of line 83 is next. -/
  | serverNewReturned (r : Result Server)
  /-- Inside `cluster.New(directory, listen, s.ListenAndServe, s)`. -/
  | inClusterNew (s : Server)
  /-- The call `cluster.New` returned `r`; the check of line 88 is next. -/
  | clusterNewReturned (s : Server) (r : Result Cluster)
  /-- Inside `c.ListenAndServe(join)`. -/
  | inListenAndServe (s : Server) (c : Cluster)
  /-- The call `c.ListenAndServe(join)` returned the error `e`; line 93 is next. -/
  | listenAndServeReturned (s : Server) (c : Cluster) (e : Error)
  /-- Inside `log.Fatal(e)`: the error is logged, `os.Exit(1)` is next. -/
  | inLogFatal (e : Error)
  /-- The `os.Exit(1)` of `log.Fatal` ended the process. -/
  | fatal
  /-- The function returned: `c.ListenAndServe` gave `nil`. -/
  | done
  deriving DecidableEq, Repr

/-- The process: operating-system state, calls made so far, and the two goroutines. -/
structure State (σ : Type) where
  fs : σ
  trace : List Event
  mainPC : MainPC
  unitPC : UnitPC

/-- How a process ended. -/
inductive Outcome where
  | exit (status : Nat)
  | signalled (sig : Signal)
  deriving DecidableEq, Repr

/-- The way the process ended, `none` while it runs.  Returning from `main`
is exit status 0, `os.Exit(n)` (also through `log.Fatal`, with 1) is status `n`. -/
def State.outcome {σ : Type} (st : State σ) : Option Outcome :=
  match st.mainPC, st.unitPC with
  | .exited code, _ => some (.exit code)
  | .returned, _ => some (.exit 0)
  | .killed sig, _ => some (.signalled sig)
  | _, .fatal => some (.exit 1)
  | _, _ => none

/-- The process was ended by a signal: `main` received it on the channel and
returned, which is exit status 0, or it arrived before `signal.Notify` and took
its default action. -/
def State.endedBySignal {σ : Type} (st : State σ) : Prop :=
  (st.outcome = some (.exit 0) ∧ ∃ sig, Event.sigchanRecv sig ∈ st.trace) ∨
    ∃ sig, st.outcome = some (.signalled sig)

/-- Lines 19-95 on the main goroutine, up to and including the `go` statement. -/
def startup {σ : Type} (env : Env σ) : State σ :=
  match flagParse env.commandLine with
  | none =>
    -- flag.CommandLine is an ExitOnError flag set: it calls flag.Usage and exits
    ⟨env.fs, [.flagParse] ++ usage env ++ [.osExit (flagExitStatus env.commandLine)],
      .exited (flagExitStatus env.commandLine), .absent⟩
  | some cfg =>
    if cfg.nArg ≠ 0 then
      ⟨env.fs, [.flagParse] ++ usage env ++ [.osExit 1], .exited 1, .absent⟩
    else
      let pre : List Event :=
        [.flagParse, .setVerbose (decide (cfg.verbose > 0)),
          .setLogLevel (wrapInt (cfg.verbose - 1))]
      match prepare env.os cfg.directory env.fs with
      | (evs, fs1, false) => ⟨fs1, pre ++ evs, .exited 1, .absent⟩
      | (evs, fs1, true) => ⟨fs1, pre ++ evs ++ [.registerCommand, .go], .subscribing, .spawned⟩

/-! ## The concurrent part -/

/-- One move of the goroutine of lines 81-95: it enters a collaborator call,
or the call it is in returns, or it runs the statement that follows a return
(the error check with the entry of `log.Fatal` or of the next call), or the
`os.Exit(1)` inside `log.Fatal` ends the process. -/
def unitStep {σ : Type} (env : Env σ) (cfg : Config) : UnitPC → UnitPC × List Event
  | .spawned => (.inServerNew, [.serverNew])
  | .inServerNew => (.serverNewReturned env.serverNew, [.serverNewRet env.serverNew])
  | .serverNewReturned (.err e) => (.inLogFatal e, [.logFatal e])
  | .serverNewReturned (.ok s) =>
    (.inClusterNew s, [.clusterNew cfg.directory cfg.listen (.ListenAndServe s) s])
  | .inClusterNew s =>
    (.clusterNewReturned s (env.clusterNew cfg.directory cfg.listen (.ListenAndServe s) s),
      [.clusterNewRet (env.clusterNew cfg.directory cfg.listen (.ListenAndServe s) s)])
  | .clusterNewReturned _ (.err e) => (.inLogFatal e, [.logFatal e])
  | .clusterNewReturned s (.ok c) => (.inListenAndServe s c, [.listenAndServe c cfg.join])
  | .inListenAndServe s c =>
    match env.listenAndServe c cfg.join with
    | none => (.inListenAndServe s c, [])
    | some (some e) => (.listenAndServeReturned s c e, [.listenAndServeRet c (some e)])
    | some none => (.done, [.listenAndServeRet c none])
  | .listenAndServeReturned _ _ e => (.inLogFatal e, [.logFatal e])
  | .inLogFatal _ => (.fatal, [.osExit 1])
  | .absent => (.absent, [])
  | .fatal => (.fatal, [])
  | .done => (.done, [])

/-- What happens next. -/
inductive Choice where
  /-- The main goroutine moves. -/
  | main
  /-- The start-up goroutine moves. -/
  | unit
  /-- The operating system delivers `sig` to the process. -/
  | signal (sig : Signal)
  deriving DecidableEq, Repr

/-- One step of the process.  Lines 97-100 on the main goroutine: subscribe
to SIGINT and SIGTERM, block on the channel, receive a signal, return.  The
channel has no buffer: a signal that arrives when the main goroutine is not
blocked in the receive is dropped.  Before `signal.Notify` a signal takes
its default action and ends the process. -/
def step {σ : Type} (env : Env σ) (cfg : Config) (st : State σ) (ch : Choice) : State σ :=
  if st.outcome.isSome then st
  else
    match ch with
    | .unit =>
      { st with
        unitPC := (unitStep env cfg st.unitPC).1
        trace := st.trace ++ (unitStep env cfg st.unitPC).2 }
    | .main =>
      match st.mainPC with
      | .subscribing =>
        { st with
          mainPC := .subscribed, trace := st.trace ++ [.signalNotify [.SIGINT, .SIGTERM]] }
      | .subscribed => { st with mainPC := .waiting }
      | .received => { st with mainPC := .returned, trace := st.trace ++ [.mainReturn] }
      | _ => st
    | .signal sig =>
      match st.mainPC with
      | .subscribing => { st with mainPC := .killed sig, trace := st.trace ++ [.defaultAction sig] }
      | .subscribed => st
      | .waiting => { st with mainPC := .received, trace := st.trace ++ [.sigchanRecv sig] }
      | _ => st

/-- The process after the schedule `sched`, from the state `st`. -/
def exec {σ : Type} (env : Env σ) (cfg : Config) : State σ → List Choice → State σ
  | st, [] => st
  | st, ch :: rest => exec env cfg (step env cfg st ch) rest

/-- The program: the sequential start-up, then the two goroutines under `sched`. -/
def main {σ : Type} (env : Env σ) (sched : List Choice) : State σ :=
  match flagParse env.commandLine with
  | none => startup env
  | some cfg => exec env cfg (startup env) sched

/-! ## A filesystem for `os.MkdirAll` and `os.Chdir` -/

/-- An absolute location: the names from the root down, the root being `[]`. -/
abbrev Path := List String

/-- The directory tree as the two `os` calls see it (no symbolic links). -/
structure FS where
  /-- The directories other than the root. -/
  dirs : List Path
  /-- The entries that are not directories. -/
  files : List Path
  /-- The directories in which the process may not create an entry. -/
  readOnly : List Path
  /-- The working directory of the process. -/
  cwd : Path
  deriving DecidableEq, Repr

/-- What `Stat` reports for an existing entry. -/
inductive FileKind where
  | dir
  | file
  deriving DecidableEq, Repr

/-- Whether `p` is a directory; the root always is. -/
def FS.isDir (fs : FS) (p : Path) : Bool := decide (p = []) || decide (p ∈ fs.dirs)

/-- Whether `p` is an entry other than a directory. -/
def FS.isFile (fs : FS) (p : Path) : Bool := decide (p ∈ fs.files)

/-- The function `os.IsPathSeparator` on Unix. -/
def isPathSeparator (c : Char) : Bool := decide (c = '/')

/-- The pieces of a path string between separators. -/
def splitSlash : List Char → List (List Char)
  | [] => [[]]
  | c :: cs =>
    if isPathSeparator c then [] :: splitSlash cs
    else
      match splitSlash cs with
      | [] => [[c]]
      | x :: xs => (c :: x) :: xs

/-- The names of a path string, in order. -/
def components (path : List Char) : List String := (splitSlash path).map String.mk

/-- Follow `names` from the directory `cur`: every name is looked up in an
existing directory, `.` and the empty name stay, `..` goes to the parent. -/
def FS.walk (fs : FS) : Path → List String → Option Path
  | cur, [] => some cur
  | cur, name :: rest =>
    if !fs.isDir cur then none
    else if name = "" ∨ name = "." then fs.walk cur rest
    else if name = ".." then fs.walk cur.dropLast rest
    else fs.walk (cur ++ [name]) rest

/-- The location a path string names: from the root when it starts with a
separator, from the working directory otherwise. -/
def FS.lookup (fs : FS) (path : List Char) : Option Path :=
  if path = [] then none
  else fs.walk (if path.head? = some '/' then [] else fs.cwd) (components path)

/-- The call `os.Stat`, `none` for an error. -/
def FS.Stat (fs : FS) (path : List Char) : Option FileKind :=
  match fs.lookup path with
  | none => none
  | some p => if fs.isDir p then some .dir else if fs.isFile p then some .file else none

/-- The call `os.Mkdir`: the entry must be new and its parent writable.
Trailing separators are ignored. -/
def FS.Mkdir (fs : FS) (path : List Char) : Option Error × FS :=
  match fs.lookup (path.rdropWhile isPathSeparator) with
  | none => (some "no such file or directory", fs)
  | some p =>
    if fs.isDir p || fs.isFile p then (some "file exists", fs)
    else if decide (p.dropLast ∈ fs.readOnly) then (some "permission denied", fs)
    else (none, { fs with dirs := fs.dirs ++ [p] })

/-- The body of `os.MkdirAll`: nothing to do for an existing directory;
otherwise make the parent (the path up to its last element) and then the
directory itself.  The parent is a shorter string, `fuel` bounds the depth. -/
def FS.MkdirAllFuel : Nat → List Char → FS → Option Error × FS
  | 0, _, fs => (some "file name too long", fs)
  | fuel + 1, path, fs =>
    match fs.Stat path with
    | some .dir => (none, fs)
    | some .file => (some "not a directory", fs)
    | none =>
      let upToI := path.rdropWhile isPathSeparator
      let upToJ := upToI.rdropWhile (fun c => !isPathSeparator c)
      let parent : Option Error × FS :=
        if upToJ.length > 1 then FS.MkdirAllFuel fuel upToJ.dropLast fs else (none, fs)
      match parent with
      | (some err, fs1) => (some err, fs1)
      | (none, fs1) =>
        match fs1.Mkdir path with
        | (none, fs2) => (none, fs2)
        | (some err, fs2) => if fs2.Stat path = some .dir then (none, fs2) else (some err, fs2)

/-- The call `os.MkdirAll(path, perm)`. -/
def FS.MkdirAll (path : String) (_perm : Nat) (fs : FS) : Option Error × FS :=
  FS.MkdirAllFuel (path.toList.length + 1) path.toList fs

/-- The call `os.Chdir(path)`. -/
def FS.Chdir (path : String) (fs : FS) : Option Error × FS :=
  match fs.lookup path.toList with
  | none => (some "no such file or directory", fs)
  | some p => if fs.isDir p then (none, { fs with cwd := p }) else (some "not a directory", fs)

/-- The operating system over this filesystem. -/
def unixOS : OS FS := ⟨FS.MkdirAll, FS.Chdir⟩

/-! ## Listen-address classification -/

/-- The two kinds of listen address. -/
inductive TransportKind where
  | UnixSocket
  | NetworkSocket
  deriving DecidableEq, Repr

/-- Modelled from the spec: the AddressResolver, which lives in the request
server and the cluster transport (packages `server` and `cluster`) and not
in `main.go`, where the listen address is only passed on.  Return
`UnixSocket` if the first character is `/` or `.`, otherwise
`NetworkSocket`; the empty string maps to `NetworkSocket`. -/
def resolve (listen : String) : TransportKind :=
  match listen.toList with
  | [] => .NetworkSocket
  | c :: _ => if c = '/' ∨ c = '.' then .UnixSocket else .NetworkSocket

/-! ## Reading a trace -/

/-- The events of the start-up goroutine. -/
def Event.byUnit : Event → Bool
  | .serverNew => true
  | .serverNewRet _ => true
  | .clusterNew _ _ _ _ => true
  | .clusterNewRet _ => true
  | .listenAndServe _ _ => true
  | .listenAndServeRet _ _ => true
  | .logFatal _ => true
  | .osExit _ => true
  | _ => false

/-- The events of the main goroutine after the `go` statement. -/
def Event.byMain : Event → Bool
  | .signalNotify _ => true
  | .sigchanRecv _ => true
  | .mainReturn => true
  | .defaultAction _ => true
  | _ => false

/-- A call into the cluster transport: `cluster.New` or `c.ListenAndServe`. -/
def Event.isClusterCall : Event → Bool
  | .clusterNew _ _ _ _ => true
  | .listenAndServe _ _ => true
  | _ => false

/-- Entry of `cluster.New`. -/
def Event.isClusterNew : Event → Bool
  | .clusterNew _ _ _ _ => true
  | _ => false

/-- Entry of the cluster transport's blocking entry point `c.ListenAndServe`. -/
def Event.isListenAndServe : Event → Bool
  | .listenAndServe _ _ => true
  | _ => false

/-- The trace of a start-up that reaches the `go` statement. -/
def startupTrace (cfg : Config) : List Event :=
  [.flagParse, .setVerbose (decide (cfg.verbose > 0)), .setLogLevel (wrapInt (cfg.verbose - 1)),
    .mkdirAll cfg.directory dirPerm none, .logPrintf "Changing directory to %s" cfg.directory,
    .chdir cfg.directory none, .registerCommand, .go]

/-- The histories of the start-up goroutine, each with the place it leads to. -/
inductive UnitRun (cfg : Config) : UnitPC → List Event → Prop where
  | spawned : UnitRun cfg .spawned []
  | inServerNew : UnitRun cfg .inServerNew [.serverNew]
  | serverReturned (r : Result Server) :
    UnitRun cfg (.serverNewReturned r) [.serverNew, .serverNewRet r]
  | serverLogged (e : Error) :
    UnitRun cfg (.inLogFatal e) [.serverNew, .serverNewRet (.err e), .logFatal e]
  | serverFailed (e : Error) :
    UnitRun cfg .fatal [.serverNew, .serverNewRet (.err e), .logFatal e, .osExit 1]
  | inClusterNew (s : Server) :
    UnitRun cfg (.inClusterNew s)
      [.serverNew, .serverNewRet (.ok s),
        .clusterNew cfg.directory cfg.listen (.ListenAndServe s) s]
  | clusterReturned (s : Server) (r : Result Cluster) :
    UnitRun cfg (.clusterNewReturned s r)
      [.serverNew, .serverNewRet (.ok s),
        .clusterNew cfg.directory cfg.listen (.ListenAndServe s) s, .clusterNewRet r]
  | clusterLogged (s : Server) (e : Error) :
    UnitRun cfg (.inLogFatal e)
      [.serverNew, .serverNewRet (.ok s),
        .clusterNew cfg.directory cfg.listen (.ListenAndServe s) s,
        .clusterNewRet (.err e), .logFatal e]
  | clusterFailed (s : Server) (e : Error) :
    UnitRun cfg .fatal
      [.serverNew, .serverNewRet (.ok s),
        .clusterNew cfg.directory cfg.listen (.ListenAndServe s) s,
        .clusterNewRet (.err e), .logFatal e, .osExit 1]
  | serving (s : Server) (c : Cluster) :
    UnitRun cfg (.inListenAndServe s c)
      [.serverNew, .serverNewRet (.ok s),
        .clusterNew cfg.directory cfg.listen (.ListenAndServe s) s,
        .clusterNewRet (.ok c), .listenAndServe c cfg.join]
  | serveReturned (s : Server) (c : Cluster) (e : Error) :
    UnitRun cfg (.listenAndServeReturned s c e)
      [.serverNew, .serverNewRet (.ok s),
        .clusterNew cfg.directory cfg.listen (.ListenAndServe s) s,
        .clusterNewRet (.ok c), .listenAndServe c cfg.join,
        .listenAndServeRet c (some e)]
  | serveLogged (s : Server) (c : Cluster) (e : Error) :
    UnitRun cfg (.inLogFatal e)
      [.serverNew, .serverNewRet (.ok s),
        .clusterNew cfg.directory cfg.listen (.ListenAndServe s) s,
        .clusterNewRet (.ok c), .listenAndServe c cfg.join,
        .listenAndServeRet c (some e), .logFatal e]
  | serveFailed (s : Server) (c : Cluster) (e : Error) :
    UnitRun cfg .fatal
      [.serverNew, .serverNewRet (.ok s),
        .clusterNew cfg.directory cfg.listen (.ListenAndServe s) s,
        .clusterNewRet (.ok c), .listenAndServe c cfg.join,
        .listenAndServeRet c (some e), .logFatal e, .osExit 1]
  | served (s : Server) (c : Cluster) :
    UnitRun cfg .done
      [.serverNew, .serverNewRet (.ok s),
        .clusterNew cfg.directory cfg.listen (.ListenAndServe s) s,
        .clusterNewRet (.ok c), .listenAndServe c cfg.join,
        .listenAndServeRet c none]

/-- The histories of the main goroutine after the `go` statement. -/
inductive MainRun : MainPC → List Event → Prop where
  | subscribing : MainRun .subscribing []
  | subscribed : MainRun .subscribed [.signalNotify [.SIGINT, .SIGTERM]]
  | waiting : MainRun .waiting [.signalNotify [.SIGINT, .SIGTERM]]
  | received (sig : Signal) :
    MainRun .received [.signalNotify [.SIGINT, .SIGTERM], .sigchanRecv sig]
  | returned (sig : Signal) :
    MainRun .returned [.signalNotify [.SIGINT, .SIGTERM], .sigchanRecv sig, .mainReturn]
  | killed (sig : Signal) : MainRun (.killed sig) [.defaultAction sig]

/-- What holds of the process in the concurrent part, `tail` being the
events after the `go` statement. -/
structure Conc {σ : Type} (cfg : Config) (st : State σ) (tail : List Event) : Prop where
  unit : UnitRun cfg st.unitPC (tail.filter Event.byUnit)
  main : MainRun st.mainPC (tail.filter Event.byMain)
  all : ∀ e ∈ tail, e.byUnit = true ∨ e.byMain = true
  excl : st.unitPC = .fatal →
    st.mainPC = .subscribing ∨ st.mainPC = .subscribed ∨ st.mainPC = .waiting ∨
      st.mainPC = .received

/-- The trace of a start-up that ends in the usage text and `os.Exit(code)`. -/
def usageTrace {σ : Type} (env : Env σ) (code : Nat) : List Event :=
  [.flagParse,
    .fprintf .Stderr usageFormat
      [env.arg0, "./" ++ env.filepathBase env.arg0, env.filepathDir env.arg0,
        "./" ++ env.filepathBase env.arg0, "./" ++ env.filepathBase env.arg0,
        "./" ++ env.filepathBase env.arg0],
    .printDefaults, .osExit code]

/-- The trace of a start-up that ends because `os.MkdirAll` failed with `e`. -/
def mkdirFailTrace (cfg : Config) (e : Error) : List Event :=
  [.flagParse, .setVerbose (decide (cfg.verbose > 0)), .setLogLevel (wrapInt (cfg.verbose - 1)),
    .mkdirAll cfg.directory dirPerm (some e),
    .logFatalf "Error while creating storage directory: %s\n" e, .osExit 1]

/-- The trace of a start-up that ends because `os.Chdir` failed with `e`. -/
def chdirFailTrace (cfg : Config) (e : Error) : List Event :=
  [.flagParse, .setVerbose (decide (cfg.verbose > 0)), .setLogLevel (wrapInt (cfg.verbose - 1)),
    .mkdirAll cfg.directory dirPerm none, .logPrintf "Changing directory to %s" cfg.directory,
    .chdir cfg.directory (some e),
    .logFatalf "Error while changing to storage directory: %s\n" e, .osExit 1]

/-- The ways an execution of `main` can go. -/
inductive Execution {σ : Type} (env : Env σ) : State σ → Prop where
  | badFlags (h : flagParse env.commandLine = none) :
    Execution env
      ⟨env.fs, usageTrace env (flagExitStatus env.commandLine),
        .exited (flagExitStatus env.commandLine), .absent⟩
  | positional (cfg : Config) (h : flagParse env.commandLine = some cfg) (hn : cfg.nArg ≠ 0) :
    Execution env ⟨env.fs, usageTrace env 1, .exited 1, .absent⟩
  | mkdirFailed (cfg : Config) (h : flagParse env.commandLine = some cfg) (hn : cfg.nArg = 0)
    (e : Error) (fs1 : σ) (hmk : env.os.MkdirAll cfg.directory dirPerm env.fs = (some e, fs1)) :
    Execution env ⟨fs1, mkdirFailTrace cfg e, .exited 1, .absent⟩
  | chdirFailed (cfg : Config) (h : flagParse env.commandLine = some cfg) (hn : cfg.nArg = 0)
    (fs1 : σ) (hmk : env.os.MkdirAll cfg.directory dirPerm env.fs = (none, fs1))
    (e : Error) (fs2 : σ) (hcd : env.os.Chdir cfg.directory fs1 = (some e, fs2)) :
    Execution env ⟨fs2, chdirFailTrace cfg e, .exited 1, .absent⟩
  | concurrent (cfg : Config) (h : flagParse env.commandLine = some cfg) (hn : cfg.nArg = 0)
    (fs1 : σ) (hmk : env.os.MkdirAll cfg.directory dirPerm env.fs = (none, fs1))
    (fs2 : σ) (hcd : env.os.Chdir cfg.directory fs1 = (none, fs2))
    (st : State σ) (tail : List Event) (htr : st.trace = startupTrace cfg ++ tail)
    (hfs : st.fs = fs2) (hc : Conc cfg st tail) :
    Execution env st

/-! ## Sample environments -/

/-- An operating system on which both calls succeed. -/
def okOS : OS Unit := ⟨fun _ _ u => (none, u), fun _ u => (none, u)⟩

/-- An environment in which every collaborator succeeds and `c.ListenAndServe`
blocks, started as `./level4` with the command line `cl`. -/
def sampleEnv (cl : CommandLine) : Env Unit :=
  { arg0 := "./level4"
    filepathDir := fun _ => "."
    filepathBase := fun _ => "level4"
    commandLine := cl
    os := okOS
    fs := ()
    serverNew := .ok ⟨1⟩
    clusterNew := fun _ _ _ _ => .ok ⟨2⟩
    listenAndServe := fun _ _ => none }

/-- A tree with the directories `/work` and `/work/node0`, the process in `/work`. -/
def sampleFS : FS :=
  { dirs := [["work"], ["work", "node0"]], files := [], readOnly := [], cwd := ["work"] }

/-- A tree in which `/tmp` is a directory and `/tmp/sqlcluster` a regular file. -/
def collisionFS : FS :=
  { dirs := [["tmp"]], files := [["tmp", "sqlcluster"]], readOnly := [], cwd := [] }

/-- A node started with the default flags on `collisionFS`. -/
def collisionEnv : Env FS :=
  { arg0 := "./level4"
    filepathDir := fun _ => "."
    filepathBase := fun _ => "level4"
    commandLine := .flags none none none none []
    os := unixOS
    fs := collisionFS
    serverNew := .ok ⟨1⟩
    clusterNew := fun _ _ _ _ => .ok ⟨2⟩
    listenAndServe := fun _ _ => none }

/-- A node started with the default flags whose `server.New` fails. -/
def serverFailEnv : Env Unit :=
  { sampleEnv (.flags none none none none []) with serverNew := .err "listen: address in use" }

/-! ## Lemmas on the model -/

set_option maxHeartbeats 4000000

theorem exec_of_ended {σ : Type} (env : Env σ) (cfg : Config) (sched : List Choice) :
    ∀ st : State σ, st.outcome.isSome = true → exec env cfg st sched = st := by
  induction sched with
  | nil => intro st _; rfl
  | cons ch rest ih =>
    intro st h
    have hs : step env cfg st ch = st := by simp [step, h]
    simp only [exec, hs]
    exact ih st h

theorem exec_append {σ : Type} (env : Env σ) (cfg : Config) (a b : List Choice) :
    ∀ st : State σ, exec env cfg st (a ++ b) = exec env cfg (exec env cfg st a) b := by
  induction a with
  | nil => intro st; rfl
  | cons ch rest ih => intro st; exact ih (step env cfg st ch)

theorem unitStep_run {σ : Type} (env : Env σ) (cfg : Config) {pc : UnitPC} {l : List Event}
    (h : UnitRun cfg pc l) :
    UnitRun cfg (unitStep env cfg pc).1 (l ++ (unitStep env cfg pc).2) := by
  cases h with
  | spawned => exact .inServerNew
  | inServerNew => exact .serverReturned _
  | serverReturned r =>
    cases r with
    | ok s => exact .inClusterNew s
    | err e => exact .serverLogged e
  | serverLogged e => exact .serverFailed e
  | serverFailed e => exact .serverFailed e
  | inClusterNew s => exact .clusterReturned s _
  | clusterReturned s r =>
    cases r with
    | ok c => exact .serving s c
    | err e => exact .clusterLogged s e
  | clusterLogged s e => exact .clusterFailed s e
  | clusterFailed s e => exact .clusterFailed s e
  | serving s c =>
    simp only [unitStep]
    split <;> simp only [List.cons_append, List.nil_append, List.append_nil] <;> constructor
  | serveReturned s c e => exact .serveLogged s c e
  | serveLogged s c e => exact .serveFailed s c e
  | serveFailed s c e => exact .serveFailed s c e
  | served s c => exact .served s c

theorem unitStep_byUnit {σ : Type} (env : Env σ) (cfg : Config) (pc : UnitPC) :
    ∀ e ∈ (unitStep env cfg pc).2, e.byUnit = true ∧ e.byMain = false := by
  cases pc with
  | serverNewReturned r => cases r <;> simp [unitStep, Event.byUnit, Event.byMain]
  | clusterNewReturned s r => cases r <;> simp [unitStep, Event.byUnit, Event.byMain]
  | inListenAndServe s c =>
    simp only [unitStep]
    split <;> simp [Event.byUnit, Event.byMain]
  | _ => simp [unitStep, Event.byUnit, Event.byMain]

theorem filter_append_all {p : Event → Bool} (l evs : List Event) (h : ∀ e ∈ evs, p e = true) :
    (l ++ evs).filter p = l.filter p ++ evs := by
  rw [List.filter_append, List.filter_eq_self.mpr h]

theorem filter_append_none {p : Event → Bool} (l evs : List Event) (h : ∀ e ∈ evs, p e = false) :
    (l ++ evs).filter p = l.filter p := by
  have h0 : evs.filter p = [] := by
    rw [List.filter_eq_nil_iff]
    intro e he
    simp [h e he]
  rw [List.filter_append, h0, List.append_nil]

theorem outcome_none_iff {σ : Type} (st : State σ) :
    st.outcome = none ↔
      (st.mainPC = .subscribing ∨ st.mainPC = .subscribed ∨ st.mainPC = .waiting ∨
          st.mainPC = .received) ∧
        st.unitPC ≠ .fatal := by
  cases st with
  | mk fs tr m u => cases m <;> cases u <;> simp [State.outcome]

theorem MainRun.of_subscribing {m : List Event} (h : MainRun .subscribing m) : m = [] := by
  cases h; rfl

theorem MainRun.of_subscribed {m : List Event} (h : MainRun .subscribed m) :
    m = [.signalNotify [.SIGINT, .SIGTERM]] := by
  cases h; rfl

theorem MainRun.of_waiting {m : List Event} (h : MainRun .waiting m) :
    m = [.signalNotify [.SIGINT, .SIGTERM]] := by
  cases h; rfl

theorem MainRun.of_received {m : List Event} (h : MainRun .received m) :
    ∃ sig, m = [.signalNotify [.SIGINT, .SIGTERM], .sigchanRecv sig] := by
  cases h with
  | received sig => exact ⟨sig, rfl⟩

theorem Conc.by_main {σ : Type} {cfg : Config} {st : State σ} {tail : List Event}
    (st2 : State σ) (evs : List Event) (hc : Conc cfg st tail) (hu : st2.unitPC = st.unitPC)
    (hev : ∀ e ∈ evs, e.byMain = true ∧ e.byUnit = false)
    (hm : MainRun st2.mainPC (tail.filter Event.byMain ++ evs))
    (hex : st.unitPC = .fatal →
      st2.mainPC = .subscribing ∨ st2.mainPC = .subscribed ∨ st2.mainPC = .waiting ∨
        st2.mainPC = .received) :
    Conc cfg st2 (tail ++ evs) := by
  refine ⟨?_, ?_, ?_, ?_⟩
  · rw [filter_append_none _ _ (fun e he => (hev e he).2), hu]
    exact hc.unit
  · rw [filter_append_all _ _ (fun e he => (hev e he).1)]
    exact hm
  · intro e he
    rcases List.mem_append.mp he with h | h
    · exact hc.all e h
    · exact Or.inr (hev e h).1
  · rw [hu]; exact hex

theorem step_conc {σ : Type} (env : Env σ) (cfg : Config) (T0 : List Event) (st : State σ)
    (tail : List Event) (ch : Choice) (htr : st.trace = T0 ++ tail) (hc : Conc cfg st tail) :
    ∃ tail2, (step env cfg st ch).trace = T0 ++ tail2 ∧ (step env cfg st ch).fs = st.fs ∧
      Conc cfg (step env cfg st ch) tail2 := by
  unfold step
  by_cases hout : st.outcome.isSome = true
  · rw [if_pos hout]; exact ⟨tail, htr, rfl, hc⟩
  · have hnone : st.outcome = none := by
      cases h : st.outcome with
      | none => rfl
      | some o => simp [h] at hout
    obtain ⟨hm, hu⟩ := (outcome_none_iff st).mp hnone
    rw [if_neg hout]
    cases ch with
    | unit =>
      refine ⟨tail ++ (unitStep env cfg st.unitPC).2, ?_, rfl, ?_⟩
      · simp [htr, List.append_assoc]
      · have hev := unitStep_byUnit env cfg st.unitPC
        refine ⟨?_, ?_, ?_, ?_⟩
        · simp only []
          rw [filter_append_all _ _ (fun e he => (hev e he).1)]
          exact unitStep_run env cfg hc.unit
        · simp only []
          rw [filter_append_none _ _ (fun e he => (hev e he).2)]
          exact hc.main
        · intro e he
          rcases List.mem_append.mp he with h | h
          · exact hc.all e h
          · exact Or.inl (hev e h).1
        · intro _; exact hm
    | main =>
      have h1 := hc.main
      rcases hm with hm | hm | hm | hm
      · rw [hm] at h1
        have hfil : tail.filter Event.byMain = [] := h1.of_subscribing
        refine ⟨tail ++ [.signalNotify [.SIGINT, .SIGTERM]], by simp [hm, htr], by simp [hm], ?_⟩
        simp only [hm]
        refine Conc.by_main _ _ hc rfl (by simp [Event.byMain, Event.byUnit]) ?_ (fun _ => by simp)
        rw [hfil]; exact MainRun.subscribed
      · rw [hm] at h1
        have hfil : tail.filter Event.byMain = [.signalNotify [.SIGINT, .SIGTERM]] :=
          h1.of_subscribed
        refine ⟨tail, by simp [hm, htr], by simp [hm], ?_⟩
        simp only [hm]
        have h2 := Conc.by_main { st with mainPC := .waiting } [] hc rfl
          (by simp) (by rw [hfil]; exact MainRun.waiting) (fun _ => by simp)
        simpa using h2
      · exact ⟨tail, by simp [hm, htr], by simp [hm], by simpa [hm] using hc⟩
      · rw [hm] at h1
        obtain ⟨sig, hfil⟩ := h1.of_received
        refine ⟨tail ++ [.mainReturn], by simp [hm, htr], by simp [hm], ?_⟩
        simp only [hm]
        refine Conc.by_main _ _ hc rfl (by simp [Event.byMain, Event.byUnit]) ?_
          (fun h => absurd h hu)
        rw [hfil]; exact MainRun.returned sig
    | signal sig =>
      have h1 := hc.main
      rcases hm with hm | hm | hm | hm
      · rw [hm] at h1
        have hfil : tail.filter Event.byMain = [] := h1.of_subscribing
        refine ⟨tail ++ [.defaultAction sig], by simp [hm, htr], by simp [hm], ?_⟩
        simp only [hm]
        refine Conc.by_main _ _ hc rfl (by simp [Event.byMain, Event.byUnit]) ?_
          (fun h => absurd h hu)
        rw [hfil]; exact MainRun.killed sig
      · exact ⟨tail, by simp [hm, htr], by simp [hm], by simpa [hm] using hc⟩
      · rw [hm] at h1
        have hfil : tail.filter Event.byMain = [.signalNotify [.SIGINT, .SIGTERM]] :=
          h1.of_waiting
        refine ⟨tail ++ [.sigchanRecv sig], by simp [hm, htr], by simp [hm], ?_⟩
        simp only [hm]
        refine Conc.by_main _ _ hc rfl (by simp [Event.byMain, Event.byUnit]) ?_
          (fun _ => by simp)
        rw [hfil]; exact MainRun.received sig
      · exact ⟨tail, by simp [hm, htr], by simp [hm], by simpa [hm] using hc⟩

theorem exec_conc {σ : Type} (env : Env σ) (cfg : Config) (T0 : List Event)
    (sched : List Choice) :
    ∀ (st : State σ) (tail : List Event), st.trace = T0 ++ tail → Conc cfg st tail →
      ∃ tail2, (exec env cfg st sched).trace = T0 ++ tail2 ∧ (exec env cfg st sched).fs = st.fs ∧
        Conc cfg (exec env cfg st sched) tail2 := by
  induction sched with
  | nil => intro st tail htr hc; exact ⟨tail, htr, rfl, hc⟩
  | cons ch rest ih =>
    intro st tail htr hc
    obtain ⟨t1, h1, hfs1, hc1⟩ := step_conc env cfg T0 st tail ch htr hc
    obtain ⟨t2, h2, hfs2, hc2⟩ := ih (step env cfg st ch) t1 h1 hc1
    exact ⟨t2, h2, hfs2.trans hfs1, hc2⟩

theorem conc_init {σ : Type} (cfg : Config) (fs : σ) :
    Conc cfg (⟨fs, startupTrace cfg, .subscribing, .spawned⟩ : State σ) [] :=
  ⟨UnitRun.spawned, MainRun.subscribing, by simp, by simp⟩

theorem main_execution {σ : Type} (env : Env σ) (sched : List Choice) :
    Execution env (main env sched) := by
  unfold main
  cases hp : flagParse env.commandLine with
  | none =>
    simp only [startup, hp, usage]
    exact Execution.badFlags hp
  | some cfg =>
    simp only []
    by_cases hn : cfg.nArg = 0
    · rcases hmk : env.os.MkdirAll cfg.directory dirPerm env.fs with ⟨_ | e, fs1⟩
      · rcases hcd : env.os.Chdir cfg.directory fs1 with ⟨_ | e, fs2⟩
        · have hs : startup env = ⟨fs2, startupTrace cfg, .subscribing, .spawned⟩ := by
            simp [startup, hp, hn, prepare, hmk, hcd, startupTrace]
          rw [hs]
          obtain ⟨tail, htr, hfs, hc⟩ :=
            exec_conc env cfg (startupTrace cfg) sched ⟨fs2, startupTrace cfg, .subscribing, .spawned⟩
              [] (by simp) (conc_init cfg fs2)
          exact Execution.concurrent cfg hp hn fs1 hmk fs2 hcd _ tail htr hfs hc
        · have hs : startup env = ⟨fs2, chdirFailTrace cfg e, .exited 1, .absent⟩ := by
            simp [startup, hp, hn, prepare, hmk, hcd, chdirFailTrace]
          rw [hs, exec_of_ended _ _ _ _ (by simp [State.outcome])]
          exact Execution.chdirFailed cfg hp hn fs1 hmk e fs2 hcd
      · have hs : startup env = ⟨fs1, mkdirFailTrace cfg e, .exited 1, .absent⟩ := by
          simp [startup, hp, hn, prepare, hmk, mkdirFailTrace]
        rw [hs, exec_of_ended _ _ _ _ (by simp [State.outcome])]
        exact Execution.mkdirFailed cfg hp hn e fs1 hmk
    · have hs : startup env = ⟨env.fs, usageTrace env 1, .exited 1, .absent⟩ := by
        simp [startup, hp, hn, usage, usageTrace]
      rw [hs, exec_of_ended _ _ _ _ (by simp [State.outcome])]
      exact Execution.positional cfg hp hn

theorem main_snoc {σ : Type} (env : Env σ) (sched more : List Choice) (cfg : Config)
    (hp : flagParse env.commandLine = some cfg) :
    main env (sched ++ more) = exec env cfg (main env sched) more := by
  simp only [main, hp, exec_append]

theorem split_front {α : Type} {xs ys p q : List α} {e : α} (h : xs ++ e :: ys = p ++ q)
    (he : e ∉ p) : ∃ r, xs = p ++ r ∧ q = r ++ e :: ys := by
  rcases List.append_eq_append_iff.mp h with ⟨a, h1, h2⟩ | ⟨c, h1, h2⟩
  · cases a with
    | nil => exact ⟨[], by simpa using h1.symm, by simpa using h2.symm⟩
    | cons x a =>
      simp only [List.cons_append, List.cons.injEq] at h2
      exact absurd (by rw [h1, h2.1]; simp) he
  · exact ⟨c, h1, h2⟩

theorem front_members {α : Type} {xs ys rest : List α} {e a b : α}
    (h : a :: b :: rest = xs ++ e :: ys) (ha : e ≠ a) (hb : e ≠ b) : a ∈ xs ∧ b ∈ xs := by
  have h2 : xs ++ e :: ys = [a, b] ++ rest := by simpa using h.symm
  obtain ⟨r, hr, _⟩ := split_front h2 (by simp [ha, hb])
  simp [hr]

theorem filter_through_unit (p : Event → Bool) (hp : ∀ e, p e = true → e.byUnit = true)
    (l : List Event) : l.filter p = (l.filter Event.byUnit).filter p := by
  rw [List.filter_filter]
  apply List.filter_congr
  intro x _
  cases h : p x
  · simp
  · simp [hp x h]

theorem not_mem_of_split {α : Type} {l pre post : List α} {e : α} (h : l = pre ++ e :: post)
    (he : e ∉ l) : False := by
  apply he
  rw [h]
  simp

theorem flagParse_flags {v : Option Int} {l j d : Option String} {pos : List String}
    {cfg : Config} (h : flagParse (.flags v l j d pos) = some cfg) :
    cfg.verbose = v.getD 3 ∧ cfg.listen = l.getD "127.0.0.1:4000" ∧ cfg.join = j.getD "" ∧
      cfg.directory = d.getD "/tmp/sqlcluster" ∧ cfg.nArg = pos.length ∧
      minInt ≤ v.getD 3 ∧ v.getD 3 ≤ maxInt := by
  unfold flagParse at h
  simp only at h
  split at h
  · rename_i hr
    cases h
    exact ⟨rfl, rfl, rfl, rfl, rfl, hr.1, hr.2⟩
  · cases h

theorem Conc.mem_tail {σ : Type} {cfg : Config} {st : State σ} {tail : List Event}
    (hc : Conc cfg st tail) (e : Event) :
    e ∈ tail ↔ e ∈ tail.filter Event.byUnit ∨ e ∈ tail.filter Event.byMain := by
  simp only [List.mem_filter]
  constructor
  · intro h
    rcases hc.all e h with hb | hb
    · exact Or.inl ⟨h, hb⟩
    · exact Or.inr ⟨h, hb⟩
  · rintro (h | h)
    · exact h.1
    · exact h.1

theorem startupTrace_plain (cfg : Config) :
    ∀ e ∈ startupTrace cfg, e.byUnit = false ∧ e.byMain = false := by
  simp [startupTrace, Event.byUnit, Event.byMain]

theorem mem_trace_byUnit (cfg : Config) (tail : List Event) {e : Event}
    (hb : e.byUnit = true) :
    e ∈ startupTrace cfg ++ tail ↔ e ∈ tail.filter Event.byUnit := by
  rw [List.mem_append, List.mem_filter]
  constructor
  · rintro (h | h)
    · have := (startupTrace_plain cfg e h).1
      rw [hb] at this
      cases this
    · exact ⟨h, hb⟩
  · intro h
    exact Or.inr h.1

theorem mem_trace_byMain (cfg : Config) (tail : List Event) {e : Event}
    (hb : e.byMain = true) :
    e ∈ startupTrace cfg ++ tail ↔ e ∈ tail.filter Event.byMain := by
  rw [List.mem_append, List.mem_filter]
  constructor
  · rintro (h | h)
    · have := (startupTrace_plain cfg e h).2
      rw [hb] at this
      cases this
    · exact ⟨h, hb⟩
  · intro h
    exact Or.inr h.1

theorem Conc.mem_plain {σ : Type} {cfg : Config} {st : State σ} {tail : List Event}
    (hc : Conc cfg st tail) (e : Event) (hu : e.byUnit = false) (hm : e.byMain = false) :
    e ∈ startupTrace cfg ++ tail ↔ e ∈ startupTrace cfg := by
  rw [List.mem_append]
  constructor
  · rintro (h | h)
    · exact h
    · rcases hc.all e h with hb | hb
      · rw [hu] at hb; cases hb
      · rw [hm] at hb; cases hb
  · intro h
    exact Or.inl h

/-- C3 (amended): every error of the start-up goroutine is fatal and stops the sequence.
If `server.New` returns an error, `cluster.New` is never called; if `cluster.New` returns
an error, `c.ListenAndServe` is never called. After each of the three errors the only
thing the goroutine still does is `log.Fatal(err)`: either the process has exited with
status 1 and the error is in the log, or a signal has ended the process first (exit
status 0 through `main`, or the default action before `signal.Notify`), or the process
is still running and the goroutine's next two moves log the error and exit with
status 1. -/
theorem startup_errors_fatal {σ : Type} (env : Env σ) (sched : List Choice) :
    (∀ e, Event.serverNewRet (.err e) ∈ (main env sched).trace →
      (∀ d l f s, Event.clusterNew d l f s ∉ (main env sched).trace) ∧
      (((main env sched).outcome = some (.exit 1) ∧ Event.logFatal e ∈ (main env sched).trace) ∨
        (main env sched).endedBySignal ∨
        ((main env sched).outcome = none ∧
          (main env (sched ++ [.unit, .unit])).outcome = some (.exit 1) ∧
          Event.logFatal e ∈ (main env (sched ++ [.unit, .unit])).trace))) ∧
    (∀ e, Event.clusterNewRet (.err e) ∈ (main env sched).trace →
      (∀ c j, Event.listenAndServe c j ∉ (main env sched).trace) ∧
      (((main env sched).outcome = some (.exit 1) ∧ Event.logFatal e ∈ (main env sched).trace) ∨
        (main env sched).endedBySignal ∨
        ((main env sched).outcome = none ∧
          (main env (sched ++ [.unit, .unit])).outcome = some (.exit 1) ∧
          Event.logFatal e ∈ (main env (sched ++ [.unit, .unit])).trace))) ∧
    (∀ c e, Event.listenAndServeRet c (some e) ∈ (main env sched).trace →
      (((main env sched).outcome = some (.exit 1) ∧ Event.logFatal e ∈ (main env sched).trace) ∨
        (main env sched).endedBySignal ∨
        ((main env sched).outcome = none ∧
          (main env (sched ++ [.unit, .unit])).outcome = some (.exit 1) ∧
          Event.logFatal e ∈ (main env (sched ++ [.unit, .unit])).trace))) := by
  have h := main_execution env sched
  cases hp : flagParse env.commandLine with
  | none =>
    generalize main env sched = st at h ⊢
    cases h with
    | badFlags h => simp [usageTrace]
    | positional cfg h hn => simp [usageTrace]
    | mkdirFailed cfg h hn e fs1 hmk => simp [mkdirFailTrace]
    | chdirFailed cfg h hn fs1 hmk e fs2 hcd => simp [chdirFailTrace]
    | concurrent cfg h hn fs1 hmk fs2 hcd st tail htr hfs hc => rw [hp] at h; cases h
  | some cfg0 =>
    rw [main_snoc env sched _ cfg0 hp]
    generalize main env sched = st at h ⊢
    cases h with
    | badFlags h => simp [usageTrace]
    | positional cfg h hn => simp [usageTrace]
    | mkdirFailed cfg h hn e fs1 hmk => simp [mkdirFailTrace]
    | chdirFailed cfg h hn fs1 hmk e fs2 hcd => simp [chdirFailTrace]
    | concurrent cfg h hn fs1 hmk fs2 hcd st tail htr hfs hc =>
      rw [hp] at h
      cases h
      obtain ⟨fs, tr, mpc, pc⟩ := st
      simp only at htr
      subst htr
      have htail := hc.mem_tail
      have hu := hc.unit
      have hm := hc.main
      have hex := hc.excl
      simp only [exec, step, State.endedBySignal, List.mem_append]
      simp only at hu hm hex
      generalize tail.filter Event.byUnit = u at hu htail
      generalize tail.filter Event.byMain = m at hm htail
      clear hc
      refine ⟨?_, ?_, ?_⟩
      · intro e he
        cases hm <;> simp only [htail] at he ⊢ <;> cases hu <;>
          simp [startupTrace] at he <;> (try subst_vars) <;>
          simp_all [startupTrace, State.outcome, unitStep]
      · intro e he
        cases hm <;> simp only [htail] at he ⊢ <;> cases hu <;>
          simp [startupTrace] at he <;> (try subst_vars) <;>
          simp_all [startupTrace, State.outcome, unitStep]
      · intro c e he
        cases hm <;> simp only [htail] at he ⊢ <;> cases hu <;>
          simp [startupTrace] at he <;> (try subst_vars) <;>
          simp_all [startupTrace, State.outcome, unitStep]


/-- C5: for every command line that leaves at least one positional argument after flag
parsing, `main` prints the usage text to standard error and exits with status 1 before
any other effect. The whole trace is `flag.Parse()`, the `fmt.Fprintf` of the usage text
to `os.Stderr` with its six arguments, `flag.PrintDefaults()` and `os.Exit(1)`; the state
of the operating system is the initial one (no directory is created, no chdir happens),
no command is registered and the start-up goroutine is never created. -/
theorem positional_argument_usage_exit {σ : Type} (env : Env σ) (sched : List Choice)
    (cfg : Config) (hp : flagParse env.commandLine = some cfg) (hn : cfg.nArg ≠ 0) :
    (main env sched).trace =
        [Event.flagParse,
          Event.fprintf File.Stderr
            "Usage: %s [options]\n\nRun a highly-available SQLite.\n\nBy default, SQLCluster will listen on a TCP port. However, if you\nspecify a listen address that begins with a / or ., that will be\ninterpeted as Unix path for SQLCluster to listen on.\n\nSo for example, you could run:\n\n  %s -d /tmp/sqlcluster/node0 -l /tmp/server.sock\n\nAnd SQLCluster would listen at /tmp/server.sock.\n\n(Note that Octopus will run using Unix sockets only, but it will\nprobably be more convient for you to develop using TCP.)\n\nRun a cluster as follows:\n\n  cd %s\n  %s -d /tmp/sqlcluster/node0 &\n  %s -d /tmp/sqlcluster/node1 -l 127.0.0.1:4001 --join 127.0.0.1:4000 &\n  %s -d /tmp/sqlcluster/node2 -l 127.0.0.1:4002 --join 127.0.0.1:4000\n\nOPTIONS:\n"
            [env.arg0, "./" ++ env.filepathBase env.arg0, env.filepathDir env.arg0,
              "./" ++ env.filepathBase env.arg0, "./" ++ env.filepathBase env.arg0,
              "./" ++ env.filepathBase env.arg0],
          Event.printDefaults, Event.osExit 1] ∧
      (main env sched).outcome = some (.exit 1) ∧
      (main env sched).fs = env.fs ∧
      (main env sched).unitPC = .absent ∧
      Event.registerCommand ∉ (main env sched).trace := by
  have h := main_execution env sched
  generalize main env sched = st at h ⊢
  cases h with
  | badFlags h => rw [hp] at h; cases h
  | positional cfg2 h hn2 => simp [usageTrace, usageFormat, State.outcome]
  | mkdirFailed cfg2 h hn2 e fs1 hmk =>
    rw [hp] at h; cases h; exact absurd hn2 hn
  | chdirFailed cfg2 h hn2 fs1 hmk e fs2 hcd =>
    rw [hp] at h; cases h; exact absurd hn2 hn
  | concurrent cfg2 h hn2 fs1 hmk fs2 hcd st tail htr hfs hc =>
    rw [hp] at h; cases h; exact absurd hn2 hn

/-- C6 (amended): the process ends with exit status 0 only through the signal path or a
request for help. The exit status is 0 exactly when `main` returned, which it does only
after a signal was received on the signal channel, or the command line asked for help,
which `flag.Parse` answers with the usage text and `os.Exit(0)`. Every `os.Exit(n)` in the
trace decides the status; input the flag package rejects ends with status 2, a positional
argument and a failing `os.MkdirAll` or `os.Chdir` with status 1. After a failing
`server.New` or `cluster.New` or an error returned by `c.ListenAndServe`, a process that
has exited has status 1, unless `main` received a signal first and returned. -/
theorem exit_zero_only_by_signal {σ : Type} (env : Env σ) (sched : List Choice) :
    ((main env sched).outcome = some (.exit 0) ↔
      (Event.mainReturn ∈ (main env sched).trace ∨ env.commandLine = .help)) ∧
    (Event.mainReturn ∈ (main env sched).trace →
      ∃ sig, Event.sigchanRecv sig ∈ (main env sched).trace) ∧
    (∀ n, Event.osExit n ∈ (main env sched).trace →
      (main env sched).outcome = some (.exit n)) ∧
    (flagParse env.commandLine = none → env.commandLine ≠ .help →
      (main env sched).outcome = some (.exit 2)) ∧
    (∀ cfg, flagParse env.commandLine = some cfg → cfg.nArg ≠ 0 →
      (main env sched).outcome = some (.exit 1)) ∧
    (∀ d p e, Event.mkdirAll d p (some e) ∈ (main env sched).trace →
      (main env sched).outcome = some (.exit 1)) ∧
    (∀ d e, Event.chdir d (some e) ∈ (main env sched).trace →
      (main env sched).outcome = some (.exit 1)) ∧
    (∀ e n, Event.serverNewRet (.err e) ∈ (main env sched).trace →
      (main env sched).outcome = some (.exit n) →
      n = 1 ∨ (n = 0 ∧ ∃ sig, Event.sigchanRecv sig ∈ (main env sched).trace)) ∧
    (∀ e n, Event.clusterNewRet (.err e) ∈ (main env sched).trace →
      (main env sched).outcome = some (.exit n) →
      n = 1 ∨ (n = 0 ∧ ∃ sig, Event.sigchanRecv sig ∈ (main env sched).trace)) ∧
    (∀ c e n, Event.listenAndServeRet c (some e) ∈ (main env sched).trace →
      (main env sched).outcome = some (.exit n) →
      n = 1 ∨ (n = 0 ∧ ∃ sig, Event.sigchanRecv sig ∈ (main env sched).trace)) := by
  have hflag : ∀ cl : CommandLine, flagParse cl = none → cl ≠ .help → flagExitStatus cl = 2 := by
    intro cl _ hne
    cases cl <;> simp_all [flagExitStatus]
  have hhelp : ∀ cfg, flagParse env.commandLine = some cfg → env.commandLine ≠ .help := by
    intro cfg hsome heq
    rw [heq] at hsome
    simp [flagParse] at hsome
  have h := main_execution env sched
  generalize main env sched = st at h ⊢
  cases h with
  | badFlags h =>
    refine ⟨?_, ?_, ?_, ?_, ?_⟩
    · cases hcl : env.commandLine <;> simp [usageTrace, State.outcome, flagExitStatus]
    · simp [usageTrace]
    · simp [usageTrace, State.outcome]
    · intro _ hne
      simp [State.outcome, hflag _ h hne]
    · simp [usageTrace, State.outcome, h]
  | positional cfg h hn => simp [usageTrace, State.outcome, h, hhelp cfg h]
  | mkdirFailed cfg h hn e fs1 hmk =>
    simp [mkdirFailTrace, State.outcome, h, hn, hhelp cfg h]
  | chdirFailed cfg h hn fs1 hmk e fs2 hcd =>
    simp [chdirFailTrace, State.outcome, h, hn, hhelp cfg h]
  | concurrent cfg h hn fs1 hmk fs2 hcd st tail htr hfs hc =>
    obtain ⟨fs, tr, mpc, pc⟩ := st
    simp only at htr
    subst htr
    have hrecv : ∀ sig, Event.sigchanRecv sig ∈ startupTrace cfg ++ tail ↔
        Event.sigchanRecv sig ∈ tail.filter Event.byMain := fun _ => mem_trace_byMain cfg tail rfl
    have hret : Event.mainReturn ∈ startupTrace cfg ++ tail ↔
        Event.mainReturn ∈ tail.filter Event.byMain := mem_trace_byMain cfg tail rfl
    have hexit : ∀ n, Event.osExit n ∈ startupTrace cfg ++ tail ↔
        Event.osExit n ∈ tail.filter Event.byUnit := fun _ => mem_trace_byUnit cfg tail rfl
    have hsr : ∀ r, Event.serverNewRet r ∈ startupTrace cfg ++ tail ↔
        Event.serverNewRet r ∈ tail.filter Event.byUnit := fun _ => mem_trace_byUnit cfg tail rfl
    have hcr : ∀ r, Event.clusterNewRet r ∈ startupTrace cfg ++ tail ↔
        Event.clusterNewRet r ∈ tail.filter Event.byUnit := fun _ => mem_trace_byUnit cfg tail rfl
    have hlr : ∀ c r, Event.listenAndServeRet c r ∈ startupTrace cfg ++ tail ↔
        Event.listenAndServeRet c r ∈ tail.filter Event.byUnit := fun _ _ => mem_trace_byUnit cfg tail rfl
    have hmk2 : ∀ d p e, Event.mkdirAll d p (some e) ∉ startupTrace cfg ++ tail := by
      intro d p e
      rw [hc.mem_plain (Event.mkdirAll d p (some e)) rfl rfl]
      simp [startupTrace]
    have hcd2 : ∀ d e, Event.chdir d (some e) ∉ startupTrace cfg ++ tail := by
      intro d e
      rw [hc.mem_plain (Event.chdir d (some e)) rfl rfl]
      simp [startupTrace]
    have hu := hc.unit
    have hm := hc.main
    have hex := hc.excl
    have hnh := hhelp cfg h
    simp only [hrecv, hret, hexit, hsr, hcr, hlr]
    simp only at hu hm hex
    generalize tail.filter Event.byUnit = u at hu
    generalize tail.filter Event.byMain = m at hm
    clear hc hrecv hret hexit hsr hcr hlr
    refine ⟨?_, ?_, ?_, ?_, ?_, ?_, ?_, ?_, ?_, ?_⟩
    · cases hm <;> cases hu <;> simp_all [State.outcome]
    · cases hm <;> simp
    · intro n hx
      cases hu <;> simp at hx <;> subst hx <;> cases hm <;> simp_all [State.outcome]
    · intro hnone; rw [h] at hnone; cases hnone
    · intro cfg2 h2 hne
      rw [h] at h2; cases h2; exact absurd hn hne
    · intro d p e hx; exact absurd hx (hmk2 d p e)
    · intro d e hx; exact absurd hx (hcd2 d e)
    · intro e n hx
      cases hu <;> simp at hx <;> (try subst_vars) <;> cases hm <;> simp_all [State.outcome]
    · intro e n hx
      cases hu <;> simp at hx <;> (try subst_vars) <;> cases hm <;> simp_all [State.outcome]
    · intro c e n hx
      cases hu <;> simp at hx <;> (try subst_vars) <;> cases hm <;> simp_all [State.outcome]

/-- C2: storage preparation gates everything after it. In every execution in which
`os.MkdirAll` or `os.Chdir` returns an error the process ends with exit status 1 and the
trace has no `raft.RegisterCommand`, no `server.New` and no `cluster.New`; and in every
execution where `server.New` is called, a successful `os.MkdirAll` and a successful
`os.Chdir` on the configured directory both come before that call. -/
theorem storage_gates_startup {σ : Type} (env : Env σ) (sched : List Choice) :
    (∀ d p e, Event.mkdirAll d p (some e) ∈ (main env sched).trace ∨
        Event.chdir d (some e) ∈ (main env sched).trace →
      (main env sched).outcome = some (.exit 1) ∧
        Event.registerCommand ∉ (main env sched).trace ∧
        Event.serverNew ∉ (main env sched).trace ∧
        ∀ a b f s, Event.clusterNew a b f s ∉ (main env sched).trace) ∧
    (∀ pre post, (main env sched).trace = pre ++ Event.serverNew :: post →
      ∃ cfg, flagParse env.commandLine = some cfg ∧
        Event.mkdirAll cfg.directory dirPerm none ∈ pre ∧
        Event.chdir cfg.directory none ∈ pre) := by
  have h := main_execution env sched
  generalize main env sched = st at h ⊢
  cases h with
  | badFlags h =>
    refine ⟨by simp [usageTrace], fun pre post hsplit => ?_⟩
    exact (not_mem_of_split hsplit (by simp [usageTrace])).elim
  | positional cfg h hn =>
    refine ⟨by simp [usageTrace], fun pre post hsplit => ?_⟩
    exact (not_mem_of_split hsplit (by simp [usageTrace])).elim
  | mkdirFailed cfg h hn e fs1 hmk =>
    refine ⟨by simp [mkdirFailTrace, State.outcome], fun pre post hsplit => ?_⟩
    exact (not_mem_of_split hsplit (by simp [mkdirFailTrace])).elim
  | chdirFailed cfg h hn fs1 hmk e fs2 hcd =>
    refine ⟨by simp [chdirFailTrace, State.outcome], fun pre post hsplit => ?_⟩
    exact (not_mem_of_split hsplit (by simp [chdirFailTrace])).elim
  | concurrent cfg h hn fs1 hmk fs2 hcd st tail htr hfs hc =>
    obtain ⟨fs, tr, mpc, pc⟩ := st
    simp only at htr
    subst htr
    refine ⟨?_, fun pre post hsplit => ?_⟩
    · intro d p e hprem
      exfalso
      rcases hprem with h1 | h1 <;> rcases List.mem_append.mp h1 with h2 | h2
      · simp [startupTrace] at h2
      · rcases hc.all _ h2 with hb | hb <;> simp [Event.byUnit, Event.byMain] at hb
      · simp [startupTrace] at h2
      · rcases hc.all _ h2 with hb | hb <;> simp [Event.byUnit, Event.byMain] at hb
    · simp only at hsplit
      obtain ⟨r, hr, _⟩ := split_front hsplit.symm (by simp [startupTrace])
      refine ⟨cfg, h, ?_, ?_⟩ <;> simp [hr, startupTrace]

/-- C1 (amended): `raft.RegisterCommand` is called at most once in every execution of
`main`: exactly once in an execution whose storage preparation succeeds (the trace has a
successful `os.Chdir`), never in one that ends before. Every call into the cluster
transport, `cluster.New` or `c.ListenAndServe`, has the registration call earlier in the
trace. -/
theorem register_once_before_cluster {σ : Type} (env : Env σ) (sched : List Choice) :
    (main env sched).trace.count Event.registerCommand ≤ 1 ∧
    ((∃ d, Event.chdir d none ∈ (main env sched).trace) →
      (main env sched).trace.count Event.registerCommand = 1) ∧
    ((¬ ∃ d, Event.chdir d none ∈ (main env sched).trace) →
      (main env sched).trace.count Event.registerCommand = 0) ∧
    (∀ pre e post, (main env sched).trace = pre ++ e :: post → e.isClusterCall = true →
      Event.registerCommand ∈ pre) := by
  have h := main_execution env sched
  generalize main env sched = st at h ⊢
  have hearly : ∀ (l pre post : List Event) (e : Event), l = pre ++ e :: post →
      e.isClusterCall = true → (∀ x ∈ l, x.isClusterCall = false) → Event.registerCommand ∈ pre := by
    intro l pre post e hl he hall
    have : e ∈ l := by rw [hl]; simp
    rw [hall e this] at he
    cases he
  cases h with
  | badFlags h =>
    refine ⟨by simp [usageTrace], by simp [usageTrace], by simp [usageTrace], ?_⟩
    intro pre e post hsplit he
    exact hearly _ pre post e hsplit he (by simp [usageTrace, Event.isClusterCall])
  | positional cfg h hn =>
    refine ⟨by simp [usageTrace], by simp [usageTrace], by simp [usageTrace], ?_⟩
    intro pre e post hsplit he
    exact hearly _ pre post e hsplit he (by simp [usageTrace, Event.isClusterCall])
  | mkdirFailed cfg h hn e fs1 hmk =>
    refine ⟨by simp [mkdirFailTrace], by simp [mkdirFailTrace], by simp [mkdirFailTrace], ?_⟩
    intro pre e post hsplit he
    exact hearly _ pre post e hsplit he (by simp [mkdirFailTrace, Event.isClusterCall])
  | chdirFailed cfg h hn fs1 hmk e fs2 hcd =>
    refine ⟨by simp [chdirFailTrace], by simp [chdirFailTrace], by simp [chdirFailTrace], ?_⟩
    intro pre e post hsplit he
    exact hearly _ pre post e hsplit he (by simp [chdirFailTrace, Event.isClusterCall])
  | concurrent cfg h hn fs1 hmk fs2 hcd st tail htr hfs hc =>
    obtain ⟨fs, tr, mpc, pc⟩ := st
    simp only at htr
    subst htr
    have hnot : Event.registerCommand ∉ tail := by
      intro hmem
      rcases hc.all _ hmem with hb | hb <;> simp [Event.byUnit, Event.byMain] at hb
    have hcount : (startupTrace cfg ++ tail).count Event.registerCommand = 1 := by
      rw [List.count_append, List.count_eq_zero.mpr hnot]
      simp [startupTrace]
    refine ⟨by simp only [hcount, le_refl], fun _ => hcount, ?_, ?_⟩
    · intro hno
      exact absurd ⟨cfg.directory, by simp [startupTrace]⟩ hno
    · intro pre e post hsplit he
      simp only at hsplit
      have hne : e ∉ startupTrace cfg := by
        intro hmem
        simp [startupTrace] at hmem
        rcases hmem with h | h | h | h | h | h | h | h <;> subst h <;>
          simp [Event.isClusterCall] at he
      obtain ⟨r, hr, _⟩ := split_front hsplit.symm hne
      simp [hr, startupTrace]


theorem startupTrace_filter (cfg : Config) (p : Event → Bool)
    (hp : ∀ e, p e = true → e.byUnit = true) : (startupTrace cfg).filter p = [] := by
  rw [List.filter_eq_nil_iff]
  intro e he hpe
  have := (startupTrace_plain cfg e he).1
  rw [hp e hpe] at this
  cases this

/-- C4 (amended): the join target is passed through unchanged. For every value of the
`-join` flag, in every execution where `server.New` and `cluster.New` both succeed, the
cluster transport's entry point `c.ListenAndServe` is entered at most once, on the handle
`cluster.New` returned, and its argument is the flag's value, the empty string without a
`-join` flag. Entering it is the goroutine's next statement: either it has been entered
once, or the process is still running and the goroutine's next move enters it, or a
signal has ended the process first. -/
theorem join_passed_through {σ : Type} (env : Env σ) (sched : List Choice)
    (v : Option Int) (l j d : Option String) (pos : List String)
    (hcl : env.commandLine = .flags v l j d pos) (s : Server) (c : Cluster)
    (hs : Event.serverNewRet (.ok s) ∈ (main env sched).trace)
    (hc : Event.clusterNewRet (.ok c) ∈ (main env sched).trace) :
    (main env sched).trace.filter Event.isListenAndServe =
        [Event.listenAndServe c (j.getD "")] ∨
      ((main env sched).trace.filter Event.isListenAndServe = [] ∧
        (main env sched).outcome = none ∧
        (main env (sched ++ [.unit])).trace.filter Event.isListenAndServe =
          [Event.listenAndServe c (j.getD "")]) ∨
      ((main env sched).trace.filter Event.isListenAndServe = [] ∧
        (main env sched).endedBySignal) := by
  have h := main_execution env sched
  cases hp : flagParse env.commandLine with
  | none =>
    generalize main env sched = st at h hs hc ⊢
    cases h with
    | badFlags h => simp [usageTrace] at hs
    | positional cfg h hn => simp [usageTrace] at hs
    | mkdirFailed cfg h hn e fs1 hmk => simp [mkdirFailTrace] at hs
    | chdirFailed cfg h hn fs1 hmk e fs2 hcd => simp [chdirFailTrace] at hs
    | concurrent cfg h hn fs1 hmk fs2 hcd st tail htr hfs hconc => rw [hp] at h; cases h
  | some cfg0 =>
    rw [main_snoc env sched _ cfg0 hp]
    generalize main env sched = st at h hs hc ⊢
    cases h with
    | badFlags h => simp [usageTrace] at hs
    | positional cfg h hn => simp [usageTrace] at hs
    | mkdirFailed cfg h hn e fs1 hmk => simp [mkdirFailTrace] at hs
    | chdirFailed cfg h hn fs1 hmk e fs2 hcd => simp [chdirFailTrace] at hs
    | concurrent cfg h hn fs1 hmk fs2 hcd st tail htr hfs hconc =>
      rw [hp] at h
      cases h
      rw [hcl] at hp
      have hj := (flagParse_flags hp).2.2.1
      obtain ⟨fs, tr, mpc, pc⟩ := st
      simp only at htr
      subst htr
      have hpu : ∀ e, Event.isListenAndServe e = true → e.byUnit = true := by
        intro e; cases e <;> simp [Event.isListenAndServe, Event.byUnit]
      have hT0 := startupTrace_filter cfg0 Event.isListenAndServe hpu
      have htl := filter_through_unit Event.isListenAndServe hpu tail
      have hrecv : ∀ sig, Event.sigchanRecv sig ∈ startupTrace cfg0 ++ tail ↔
          Event.sigchanRecv sig ∈ tail.filter Event.byMain :=
        fun _ => mem_trace_byMain cfg0 tail rfl
      have hu := hconc.unit
      have hm := hconc.main
      have hex := hconc.excl
      simp only [mem_trace_byUnit cfg0 tail (show (Event.serverNewRet (.ok s)).byUnit = true from rfl)] at hs
      simp only [mem_trace_byUnit cfg0 tail (show (Event.clusterNewRet (.ok c)).byUnit = true from rfl)] at hc
      simp only [exec, step, State.endedBySignal, hrecv]
      simp only at hu hm hex
      generalize tail.filter Event.byUnit = u at hu hs hc htl
      generalize tail.filter Event.byMain = m at hm
      clear hconc hrecv
      cases hu <;> simp at hs hc <;> (try subst_vars) <;> cases hm <;>
        simp [State.outcome, unitStep, List.filter_append, hT0, htl, hj,
          Event.isListenAndServe]

/-- C9 (amended): in every execution where `server.New` succeeds with handle `s`,
`cluster.New` is entered at most once, after `server.New` has returned, with the four
arguments `(directory, listen, s.ListenAndServe, s)`: `directory` and `listen` are the
strings of the `-d` and `-l` flags as given (the defaults `/tmp/sqlcluster` and
`127.0.0.1:4000` when a flag is absent), and the serve function and the handle are those
of `s`. Entering it is the goroutine's next statement: either it has been entered once,
or the process is still running and the goroutine's next move enters it, or a signal has
ended the process first. -/
theorem cluster_new_wiring {σ : Type} (env : Env σ) (sched : List Choice)
    (v : Option Int) (l j d : Option String) (pos : List String)
    (hcl : env.commandLine = .flags v l j d pos) (s : Server)
    (hs : Event.serverNewRet (.ok s) ∈ (main env sched).trace) :
    ((main env sched).trace.filter Event.isClusterNew =
        [Event.clusterNew (d.getD "/tmp/sqlcluster") (l.getD "127.0.0.1:4000")
          (.ListenAndServe s) s] ∨
      ((main env sched).trace.filter Event.isClusterNew = [] ∧
        (main env sched).outcome = none ∧
        (main env (sched ++ [.unit])).trace.filter Event.isClusterNew =
          [Event.clusterNew (d.getD "/tmp/sqlcluster") (l.getD "127.0.0.1:4000")
            (.ListenAndServe s) s]) ∨
      ((main env sched).trace.filter Event.isClusterNew = [] ∧
        (main env sched).endedBySignal)) ∧
    (∀ pre e post, (main env sched).trace = pre ++ e :: post → e.isClusterNew = true →
      Event.serverNew ∈ pre ∧ Event.serverNewRet (.ok s) ∈ pre) := by
  have h := main_execution env sched
  cases hp : flagParse env.commandLine with
  | none =>
    generalize main env sched = st at h hs ⊢
    cases h with
    | badFlags h => simp [usageTrace] at hs
    | positional cfg h hn => simp [usageTrace] at hs
    | mkdirFailed cfg h hn e fs1 hmk => simp [mkdirFailTrace] at hs
    | chdirFailed cfg h hn fs1 hmk e fs2 hcd => simp [chdirFailTrace] at hs
    | concurrent cfg h hn fs1 hmk fs2 hcd st tail htr hfs hconc => rw [hp] at h; cases h
  | some cfg0 =>
    rw [main_snoc env sched _ cfg0 hp]
    generalize main env sched = st at h hs ⊢
    cases h with
    | badFlags h => simp [usageTrace] at hs
    | positional cfg h hn => simp [usageTrace] at hs
    | mkdirFailed cfg h hn e fs1 hmk => simp [mkdirFailTrace] at hs
    | chdirFailed cfg h hn fs1 hmk e fs2 hcd => simp [chdirFailTrace] at hs
    | concurrent cfg h hn fs1 hmk fs2 hcd st tail htr hfs hconc =>
      rw [hp] at h
      cases h
      rw [hcl] at hp
      obtain ⟨_, hl, _, hd, _⟩ := flagParse_flags hp
      obtain ⟨fs, tr, mpc, pc⟩ := st
      simp only at htr
      subst htr
      have hu := hconc.unit
      have hm := hconc.main
      have hex := hconc.excl
      simp only [mem_trace_byUnit cfg0 tail (show (Event.serverNewRet (.ok s)).byUnit = true from rfl)] at hs
      simp only at hu hm hex
      constructor
      · have hpu : ∀ e, Event.isClusterNew e = true → e.byUnit = true := by
          intro e; cases e <;> simp [Event.isClusterNew, Event.byUnit]
        have hT0 := startupTrace_filter cfg0 Event.isClusterNew hpu
        have htl := filter_through_unit Event.isClusterNew hpu tail
        have hrecv : ∀ sig, Event.sigchanRecv sig ∈ startupTrace cfg0 ++ tail ↔
            Event.sigchanRecv sig ∈ tail.filter Event.byMain :=
          fun _ => mem_trace_byMain cfg0 tail rfl
        simp only [exec, step, State.endedBySignal, hrecv]
        generalize tail.filter Event.byUnit = u at hu hs htl
        generalize tail.filter Event.byMain = m at hm
        clear hconc hrecv
        cases hu <;> simp at hs <;> (try subst_vars) <;> cases hm <;>
          simp [State.outcome, unitStep, List.filter_append, hT0, htl, hl, hd,
            Event.isClusterNew]
      · intro pre e post hsplit he
        simp only at hsplit
        have hne : e ∉ startupTrace cfg0 := by
          intro hmem
          have hb := (startupTrace_plain cfg0 e hmem).1
          cases e <;> simp_all [Event.isClusterNew, Event.byUnit]
        obtain ⟨r, hr, htail⟩ := split_front hsplit.symm hne
        have hbu : e.byUnit = true := by cases e <;> simp_all [Event.isClusterNew, Event.byUnit]
        have hfil : tail.filter Event.byUnit =
            r.filter Event.byUnit ++ e :: post.filter Event.byUnit := by
          rw [htail, List.filter_append, List.filter_cons, hbu]; rfl
        have hsub : ∀ x, x ∈ r.filter Event.byUnit → x ∈ pre := by
          intro x hx
          rw [hr]
          exact List.mem_append_right _ (List.mem_filter.mp hx).1
        have hne1 : e ≠ Event.serverNew := by
          intro h1; subst h1; simp [Event.isClusterNew] at he
        have hne2 : ∀ r, e ≠ Event.serverNewRet r := by
          intro r h1; subst h1; simp [Event.isClusterNew] at he
        generalize tail.filter Event.byUnit = u at hu hs hfil
        clear hconc
        cases hu <;> simp at hs <;> (try subst_vars)
        case serverReturned =>
          exfalso
          have hmem : e ∈ [Event.serverNew, Event.serverNewRet (Result.ok s)] := by
            rw [hfil]; simp
          simp at hmem
          rcases hmem with h1 | h1
          · exact hne1 h1
          · exact hne2 _ h1
        all_goals
          exact ⟨hsub _ (front_members hfil hne1 (hne2 _)).1,
            hsub _ (front_members hfil hne1 (hne2 _)).2⟩

theorem wrapInt_of_range (x : Int) (hlo : minInt ≤ x) (hhi : x ≤ maxInt) : wrapInt x = x := by
  simp only [wrapInt, minInt, maxInt, intBits] at *
  norm_num at *
  omega

theorem wrapInt_below_min : wrapInt (minInt - 1) = maxInt := by
  simp only [wrapInt, minInt, maxInt, intBits]
  norm_num

/-- C10 (amended): the verbosity given to `-v` (3 when the flag is absent) reaches the
collaborators as follows. For `v <= 0`, `debuglog.SetVerbose` receives `false`, and
`raft.SetLogLevel` receives `v - 1`, a level below zero, for every such `v` except the
smallest `int`, where `v - 1` wraps around to the largest `int`. For `v > 0`,
`SetVerbose` receives `true` and the raft level is `v - 1 >= 0`. -/
theorem verbosity_levels {σ : Type} (env : Env σ) (sched : List Choice)
    (v : Option Int) (l j d : Option String)
    (hcl : env.commandLine = .flags v l j d [])
    (hlo : minInt ≤ v.getD 3) (hhi : v.getD 3 ≤ maxInt) :
    ∃ b level rest,
      (main env sched).trace =
        Event.flagParse :: Event.setVerbose b :: Event.setLogLevel level :: rest ∧
      (v = none → b = true ∧ level = 2) ∧
      (v.getD 3 ≤ 0 → b = false) ∧
      (v.getD 3 ≤ 0 → v.getD 3 ≠ minInt → level = v.getD 3 - 1 ∧ level < 0) ∧
      (v.getD 3 = minInt → level = maxInt ∧ 0 < level) ∧
      (0 < v.getD 3 → b = true ∧ level = v.getD 3 - 1 ∧ 0 ≤ level) := by
  have harith : (v = none → decide (v.getD 3 > 0) = true ∧ wrapInt (v.getD 3 - 1) = 2) ∧
      (v.getD 3 ≤ 0 → decide (v.getD 3 > 0) = false) ∧
      (v.getD 3 ≤ 0 → v.getD 3 ≠ minInt →
        wrapInt (v.getD 3 - 1) = v.getD 3 - 1 ∧ wrapInt (v.getD 3 - 1) < 0) ∧
      (v.getD 3 = minInt → wrapInt (v.getD 3 - 1) = maxInt ∧ 0 < wrapInt (v.getD 3 - 1)) ∧
      (0 < v.getD 3 → decide (v.getD 3 > 0) = true ∧
        wrapInt (v.getD 3 - 1) = v.getD 3 - 1 ∧ 0 ≤ wrapInt (v.getD 3 - 1)) := by
    refine ⟨?_, ?_⟩
    · intro hv
      subst hv
      exact ⟨by decide, wrapInt_of_range _ (by decide) (by decide)⟩
    generalize v.getD 3 = x at hlo hhi
    refine ⟨?_, ?_, ?_, ?_⟩
    · intro h; simpa using h
    · intro h hne
      have : wrapInt (x - 1) = x - 1 := by
        apply wrapInt_of_range
        · simp only [minInt, intBits] at *; norm_num at *; omega
        · simp only [maxInt, intBits] at *; norm_num at *; omega
      rw [this]; exact ⟨rfl, by omega⟩
    · intro h
      rw [h, wrapInt_below_min]
      exact ⟨rfl, by simp only [maxInt, intBits]; norm_num⟩
    · intro h
      have : wrapInt (x - 1) = x - 1 := by
        apply wrapInt_of_range
        · simp only [minInt, intBits] at *; norm_num at *; omega
        · simp only [maxInt, intBits] at *; norm_num at *; omega
      rw [this]; exact ⟨by simpa using h, rfl, by omega⟩
  have hparse : ∃ cfg, flagParse env.commandLine = some cfg ∧ cfg.verbose = v.getD 3 ∧
      cfg.nArg = 0 := by
    rw [hcl]
    simp only [flagParse, hlo, hhi, and_self, if_true]
    exact ⟨_, rfl, rfl, rfl⟩
  obtain ⟨cfg0, hp0, hv0, hn0⟩ := hparse
  have h := main_execution env sched
  generalize main env sched = st at h ⊢
  cases h with
  | badFlags h => rw [hp0] at h; cases h
  | positional cfg h hn => rw [hp0] at h; cases h; exact absurd hn0 hn
  | mkdirFailed cfg h hn e fs1 hmk =>
    rw [hp0] at h; cases h
    exact ⟨_, _, _, by simp only [mkdirFailTrace, hv0]; rfl, harith⟩
  | chdirFailed cfg h hn fs1 hmk e fs2 hcd =>
    rw [hp0] at h; cases h
    exact ⟨_, _, _, by simp only [chdirFailTrace, hv0]; rfl, harith⟩
  | concurrent cfg h hn fs1 hmk fs2 hcd st tail htr hfs hc =>
    rw [hp0] at h; cases h
    exact ⟨_, _, _, by rw [htr]; simp only [startupTrace, hv0]; rfl, harith⟩

theorem rdropWhile_length_le (p : Char → Bool) (l : List Char) :
    (l.rdropWhile p).length ≤ l.length :=
  (List.rdropWhile_prefix p l).length_le

/-- The fuel of `FS.MkdirAllFuel` does not matter once it exceeds the length of the
path: `FS.MkdirAll` never stops for lack of fuel. -/
theorem FS.MkdirAllFuel_stable (n : Nat) :
    ∀ (m : Nat) (path : List Char) (fs : FS), path.length < n → path.length < m →
      FS.MkdirAllFuel n path fs = FS.MkdirAllFuel m path fs := by
  induction n with
  | zero => intro m path fs hn; omega
  | succ n ih =>
    intro m path fs hn hm
    cases m with
    | zero => omega
    | succ m =>
      simp only [FS.MkdirAllFuel]
      cases hstat : fs.Stat path with
      | some k => cases k <;> rfl
      | none =>
        simp only
        by_cases hj : ((path.rdropWhile isPathSeparator).rdropWhile
            (fun c => !isPathSeparator c)).length > 1
        · have hlen : (((path.rdropWhile isPathSeparator).rdropWhile
              (fun c => !isPathSeparator c)).dropLast).length < path.length := by
            have h1 := rdropWhile_length_le isPathSeparator path
            have h2 := rdropWhile_length_le (fun c => !isPathSeparator c)
              (path.rdropWhile isPathSeparator)
            rw [List.length_dropLast]
            omega
          rw [if_pos hj, if_pos hj, ih m _ fs (by omega) (by omega)]
        · rw [if_neg hj, if_neg hj]

theorem FS.walk_congr (fs fs2 : FS) (h : fs.dirs = fs2.dirs) :
    ∀ (names : List String) (cur : Path), fs.walk cur names = fs2.walk cur names := by
  intro names
  induction names with
  | nil => intro cur; rfl
  | cons name rest ih =>
    intro cur
    simp only [FS.walk, FS.isDir, h, ih]

theorem FS.lookup_absolute (fs : FS) (q : Path) (path : List Char)
    (habs : path.head? = some '/') : ({ fs with cwd := q } : FS).lookup path = fs.lookup path := by
  simp only [FS.lookup, habs, if_true]
  rw [FS.walk_congr { fs with cwd := q } fs rfl]

theorem prepare_existing (fs : FS) (directory : String) (p : Path)
    (hlook : fs.lookup directory.toList = some p) (hdir : fs.isDir p = true) :
    prepare unixOS directory fs =
      ([.mkdirAll directory dirPerm none, .logPrintf "Changing directory to %s" directory,
        .chdir directory none], { fs with cwd := p }, true) := by
  have hlook2 : fs.lookup directory.data = some p := hlook
  have hstat : fs.Stat directory.data = some .dir := by simp [FS.Stat, hlook2, hdir]
  have hmk : unixOS.MkdirAll directory dirPerm fs = (none, fs) := by
    simp [unixOS, FS.MkdirAll, FS.MkdirAllFuel, hstat]
  have hcd : unixOS.Chdir directory fs = (none, { fs with cwd := p }) := by
    simp [unixOS, FS.Chdir, hlook2, hdir]
  simp [prepare, hmk, hcd]

/-- C7 (amended): storage preparation, `os.MkdirAll(directory)` followed by
`os.Chdir(directory)`, is idempotent for an absolute path: for every directory argument
that starts with `/` and names an existing, writable directory, running the preparation
twice in succession succeeds both times; the first run makes that directory the working
directory and creates nothing, and the second run leaves the filesystem and the working
directory as the first run left them. -/
theorem prepare_idempotent_absolute (fs : FS) (directory : String) (p : Path)
    (habs : directory.toList.head? = some '/')
    (hlook : fs.lookup directory.toList = some p) (hdir : fs.isDir p = true)
    (_hw : p ∉ fs.readOnly) :
    (prepare unixOS directory fs).2.2 = true ∧
      (prepare unixOS directory fs).2.1 = { fs with cwd := p } ∧
      (prepare unixOS directory (prepare unixOS directory fs).2.1).2.2 = true ∧
      (prepare unixOS directory (prepare unixOS directory fs).2.1).2.1 =
        (prepare unixOS directory fs).2.1 := by
  have h1 := prepare_existing fs directory p hlook hdir
  have hlook2 : ({ fs with cwd := p } : FS).lookup directory.toList = some p := by
    rw [FS.lookup_absolute fs p _ habs]; exact hlook
  have h2 := prepare_existing { fs with cwd := p } directory p hlook2 (by simpa [FS.isDir] using hdir)
  rw [h1]
  simp only [h2, and_self]

/-- C8: the listen address is classified by its leading character: the kind is
`UnixSocket` if and only if the string is non-empty and its first character is `/` or
`.`, and `NetworkSocket` otherwise, so the empty string is `NetworkSocket`. -/
theorem resolve_by_first_character (s : String) :
    (resolve s = .UnixSocket ↔ s ≠ "" ∧ (s.get 0 = '/' ∨ s.get 0 = '.')) ∧
      (resolve s = .NetworkSocket ↔ ¬ (s ≠ "" ∧ (s.get 0 = '/' ∨ s.get 0 = '.'))) ∧
      resolve "" = .NetworkSocket := by
  obtain ⟨data⟩ := s
  cases data with
  | nil => simp [resolve]
  | cons c cs =>
    have hne : (⟨c :: cs⟩ : String) ≠ "" := by
      intro h
      have := congrArg String.data h
      simp at this
    have hget : (⟨c :: cs⟩ : String).get 0 = c := by
      simp [String.get, String.utf8GetAux]
    simp only [hget, resolve, String.toList]
    refine ⟨?_, ?_, by decide⟩
    · by_cases h : c = '/' ∨ c = '.' <;> simp [h, hne]
    · by_cases h : c = '/' ∨ c = '.' <;> simp [h, hne]


/-- C1, as stated, fails: with one stray positional argument `main` exits with status 1
after the usage text, and `raft.RegisterCommand` is called zero times in that execution,
not exactly once. -/
theorem register_absent_on_stray_argument :
    (main (sampleEnv (.flags none none none none ["stray"])) [.unit, .main, .unit]).outcome =
        some (.exit 1) ∧
      (main (sampleEnv (.flags none none none none ["stray"])) [.unit, .main, .unit]).trace.count
        Event.registerCommand = 0 ∧
      ¬ (main (sampleEnv (.flags none none none none ["stray"])) [.unit, .main, .unit]).trace.count
        Event.registerCommand = 1 := by
  decide

/-- The registration of C1 on a node started with the default flags: storage preparation
succeeds and `raft.RegisterCommand` is called exactly once. -/
theorem register_once_before_cluster_witness :
    Event.chdir "/tmp/sqlcluster" none ∈
        (main (sampleEnv (.flags none none none none [])) [.unit, .unit, .main, .unit]).trace ∧
      (main (sampleEnv (.flags none none none none [])) [.unit, .unit, .main, .unit]).trace.count
        Event.registerCommand = 1 :=
  ⟨by decide,
    (register_once_before_cluster (sampleEnv (.flags none none none none []))
      [.unit, .unit, .main, .unit]).2.1 ⟨"/tmp/sqlcluster", by decide⟩⟩

/-- The gate of C2 when `-d` collides with a regular file: `os.MkdirAll` fails, the
process exits with status 1 and `server.New` is never called. -/
theorem storage_gates_startup_witness :
    Event.mkdirAll "/tmp/sqlcluster" dirPerm (some "not a directory") ∈
        (main collisionEnv [.unit, .unit]).trace ∧
      (main collisionEnv [.unit, .unit]).outcome = some (.exit 1) ∧
      Event.serverNew ∉ (main collisionEnv [.unit, .unit]).trace :=
  ⟨by decide,
    ((storage_gates_startup collisionEnv [.unit, .unit]).1 "/tmp/sqlcluster" dirPerm
      "not a directory" (Or.inl (by decide))).1,
    ((storage_gates_startup collisionEnv [.unit, .unit]).1 "/tmp/sqlcluster" dirPerm
      "not a directory" (Or.inl (by decide))).2.2.1⟩

/-- C3, as stated, fails: `server.New` returns an error, and before the goroutine reaches
`log.Fatal` the main goroutine receives SIGINT and returns. The process ends with exit
status 0, not a non-zero one, and the error is never logged. -/
theorem server_error_overtaken_by_signal :
    Event.serverNewRet (.err "listen: address in use") ∈
        (main serverFailEnv [.main, .main, .unit, .unit, .signal .SIGINT, .main, .unit]).trace ∧
      (main serverFailEnv [.main, .main, .unit, .unit, .signal .SIGINT, .main, .unit]).outcome =
        some (.exit 0) ∧
      Event.logFatal "listen: address in use" ∉
        (main serverFailEnv [.main, .main, .unit, .unit, .signal .SIGINT, .main, .unit]).trace ∧
      Event.osExit 1 ∉
        (main serverFailEnv [.main, .main, .unit, .unit, .signal .SIGINT, .main, .unit]).trace := by
  decide

/-- The fatal error of C3 when `server.New` fails and no signal arrives: `cluster.New` is
never called, the error is logged and the process exits with status 1. -/
theorem startup_errors_fatal_witness :
    Event.serverNewRet (.err "listen: address in use") ∈
        (main serverFailEnv [.unit, .main, .unit, .unit, .unit]).trace ∧
      (main serverFailEnv [.unit, .main, .unit, .unit, .unit]).outcome = some (.exit 1) ∧
      ∀ d l f s, Event.clusterNew d l f s ∉
        (main serverFailEnv [.unit, .main, .unit, .unit, .unit]).trace :=
  ⟨by decide, by decide,
    ((startup_errors_fatal serverFailEnv [.unit, .main, .unit, .unit, .unit]).1
      "listen: address in use" (by decide)).1⟩

/-- C4, as stated, fails: `server.New` and `cluster.New` both succeed, and before the
goroutine reaches line 92 the main goroutine receives SIGTERM and returns. The process
ends with `c.ListenAndServe` entered zero times, not exactly once. -/
theorem listen_and_serve_overtaken_by_signal :
    Event.serverNewRet (.ok ⟨1⟩) ∈
        (main (sampleEnv (.flags none none (some "127.0.0.1:4000") none []))
          [.main, .main, .unit, .unit, .unit, .unit, .signal .SIGTERM, .main, .unit]).trace ∧
      Event.clusterNewRet (.ok ⟨2⟩) ∈
        (main (sampleEnv (.flags none none (some "127.0.0.1:4000") none []))
          [.main, .main, .unit, .unit, .unit, .unit, .signal .SIGTERM, .main, .unit]).trace ∧
      (main (sampleEnv (.flags none none (some "127.0.0.1:4000") none []))
          [.main, .main, .unit, .unit, .unit, .unit, .signal .SIGTERM, .main, .unit]).outcome =
        some (.exit 0) ∧
      (main (sampleEnv (.flags none none (some "127.0.0.1:4000") none []))
          [.main, .main, .unit, .unit, .unit, .unit, .signal .SIGTERM, .main, .unit]).trace.filter
        Event.isListenAndServe = [] := by
  decide

/-- The join target of C4 on a node started with `-join 127.0.0.1:4000`: both
constructions succeed and `c.ListenAndServe` is entered once with that string. -/
theorem join_passed_through_witness :
    Event.serverNewRet (.ok ⟨1⟩) ∈
        (main (sampleEnv (.flags none none (some "127.0.0.1:4000") none []))
          [.unit, .main, .unit, .unit, .unit, .unit]).trace ∧
      Event.clusterNewRet (.ok ⟨2⟩) ∈
        (main (sampleEnv (.flags none none (some "127.0.0.1:4000") none []))
          [.unit, .main, .unit, .unit, .unit, .unit]).trace ∧
      (main (sampleEnv (.flags none none (some "127.0.0.1:4000") none []))
          [.unit, .main, .unit, .unit, .unit, .unit]).trace.filter Event.isListenAndServe =
        [Event.listenAndServe ⟨2⟩ "127.0.0.1:4000"] :=
  ⟨by decide, by decide,
    (join_passed_through (sampleEnv (.flags none none (some "127.0.0.1:4000") none []))
      [.unit, .main, .unit, .unit, .unit, .unit] none none (some "127.0.0.1:4000") none [] rfl
      ⟨1⟩ ⟨2⟩ (by decide) (by decide)).elim id
      (fun h => h.elim (fun h2 => absurd h2.1 (by decide)) (fun h2 => absurd h2.1 (by decide)))⟩

/-- The usage exit of C5 on the command line `./level4 stray`: the usage text goes to
standard error with the program name filled in, and the process exits with status 1. -/
theorem positional_argument_usage_exit_witness :
    flagParse (sampleEnv (.flags none none none none ["stray"])).commandLine =
        some ⟨3, "127.0.0.1:4000", "", "/tmp/sqlcluster", 1⟩ ∧
      (main (sampleEnv (.flags none none none none ["stray"])) [.unit, .signal .SIGINT]).trace =
        [Event.flagParse,
          Event.fprintf File.Stderr usageFormat
            ["./level4", "./level4", ".", "./level4", "./level4", "./level4"],
          Event.printDefaults, Event.osExit 1] ∧
      (main (sampleEnv (.flags none none none none ["stray"])) [.unit, .signal .SIGINT]).outcome =
        some (.exit 1) ∧
      (main (sampleEnv (.flags none none none none ["stray"])) [.unit, .signal .SIGINT]).fs =
        () :=
  ⟨by decide,
    (positional_argument_usage_exit (sampleEnv (.flags none none none none ["stray"]))
      [.unit, .signal .SIGINT] ⟨3, "127.0.0.1:4000", "", "/tmp/sqlcluster", 1⟩
      (by decide) (by decide)).1,
    (positional_argument_usage_exit (sampleEnv (.flags none none none none ["stray"]))
      [.unit, .signal .SIGINT] ⟨3, "127.0.0.1:4000", "", "/tmp/sqlcluster", 1⟩
      (by decide) (by decide)).2.1,
    (positional_argument_usage_exit (sampleEnv (.flags none none none none ["stray"]))
      [.unit, .signal .SIGINT] ⟨3, "127.0.0.1:4000", "", "/tmp/sqlcluster", 1⟩
      (by decide) (by decide)).2.2.1⟩

/-- C6, as stated, fails: on a request for help `flag.Parse` prints the usage text and
ends the process with exit status 0, and no signal was received on the signal channel. -/
theorem help_exits_zero_without_signal :
    (main (sampleEnv .help) [.main, .unit, .signal .SIGINT]).outcome = some (.exit 0) ∧
      Event.sigchanRecv .SIGINT ∉ (main (sampleEnv .help) [.main, .unit, .signal .SIGINT]).trace ∧
      Event.sigchanRecv .SIGTERM ∉
        (main (sampleEnv .help) [.main, .unit, .signal .SIGINT]).trace ∧
      Event.signalNotify [.SIGINT, .SIGTERM] ∉
        (main (sampleEnv .help) [.main, .unit, .signal .SIGINT]).trace := by
  decide

/-- The exit status of C6 on a node that runs until SIGTERM arrives: status 0, and the
signal was received on the channel. -/
theorem exit_zero_only_by_signal_witness :
    (main (sampleEnv (.flags none none none none []))
        [.main, .main, .unit, .unit, .unit, .signal .SIGTERM, .main]).outcome = some (.exit 0) ∧
      ∃ sig, Event.sigchanRecv sig ∈
        (main (sampleEnv (.flags none none none none []))
          [.main, .main, .unit, .unit, .unit, .signal .SIGTERM, .main]).trace :=
  ⟨by decide,
    (exit_zero_only_by_signal (sampleEnv (.flags none none none none []))
      [.main, .main, .unit, .unit, .unit, .signal .SIGTERM, .main]).2.1
      (((exit_zero_only_by_signal (sampleEnv (.flags none none none none []))
        [.main, .main, .unit, .unit, .unit, .signal .SIGTERM, .main]).1.mp
          (by decide)).resolve_right (by decide))⟩

/-- C7, as stated, fails for a relative path: in `/work`, the argument `node0` names the
existing, writable directory `/work/node0`; both runs of the preparation succeed, but the
second run creates `/work/node0/node0` and moves the working directory there. -/
theorem prepare_relative_not_idempotent :
    sampleFS.lookup "node0".toList = some ["work", "node0"] ∧
      sampleFS.isDir ["work", "node0"] = true ∧
      ["work", "node0"] ∉ sampleFS.readOnly ∧
      (prepare unixOS "node0" sampleFS).2.2 = true ∧
      (prepare unixOS "node0" sampleFS).2.1.cwd = ["work", "node0"] ∧
      (prepare unixOS "node0" (prepare unixOS "node0" sampleFS).2.1).2.2 = true ∧
      (prepare unixOS "node0" (prepare unixOS "node0" sampleFS).2.1).2.1.cwd =
        ["work", "node0", "node0"] ∧
      (prepare unixOS "node0" (prepare unixOS "node0" sampleFS).2.1).2.1.dirs =
        [["work"], ["work", "node0"], ["work", "node0", "node0"]] ∧
      (prepare unixOS "node0" (prepare unixOS "node0" sampleFS).2.1).2.1 ≠
        (prepare unixOS "node0" sampleFS).2.1 := by
  decide

/-- The idempotence of C7 on `/work/node0`, started in `/work`. -/
theorem prepare_idempotent_absolute_witness :
    "/work/node0".toList.head? = some '/' ∧
      sampleFS.lookup "/work/node0".toList = some ["work", "node0"] ∧
      (prepare unixOS "/work/node0" sampleFS).2.1.cwd = ["work", "node0"] ∧
      (prepare unixOS "/work/node0" (prepare unixOS "/work/node0" sampleFS).2.1).2.1 =
        (prepare unixOS "/work/node0" sampleFS).2.1 :=
  ⟨by decide, by decide, by decide,
    (prepare_idempotent_absolute sampleFS "/work/node0" ["work", "node0"] (by decide)
      (by decide) (by decide) (by decide)).2.2.2⟩

/-- The classification of C8 on the socket path of the usage text. -/
theorem resolve_by_first_character_witness :
    "/tmp/server.sock".get 0 = '/' ∧ resolve "/tmp/server.sock" = .UnixSocket :=
  ⟨by decide,
    (resolve_by_first_character "/tmp/server.sock").1.mpr ⟨by decide, Or.inl (by decide)⟩⟩

/-- C9, as stated, fails: `server.New` succeeds, and before the goroutine reaches line 87
the main goroutine receives SIGTERM and returns. The process ends with `cluster.New`
called zero times, not exactly once. -/
theorem cluster_new_overtaken_by_signal :
    Event.serverNewRet (.ok ⟨1⟩) ∈
        (main (sampleEnv (.flags none (some "127.0.0.1:4001") none (some "/tmp/x/node1") []))
          [.main, .main, .unit, .unit, .signal .SIGTERM, .main, .unit]).trace ∧
      (main (sampleEnv (.flags none (some "127.0.0.1:4001") none (some "/tmp/x/node1") []))
          [.main, .main, .unit, .unit, .signal .SIGTERM, .main, .unit]).outcome = some (.exit 0) ∧
      (main (sampleEnv (.flags none (some "127.0.0.1:4001") none (some "/tmp/x/node1") []))
          [.main, .main, .unit, .unit, .signal .SIGTERM, .main, .unit]).trace.filter
        Event.isClusterNew = [] := by
  decide

/-- The wiring of C9 on a node started with `-d /tmp/x/node1 -l 127.0.0.1:4001`. -/
theorem cluster_new_wiring_witness :
    Event.serverNewRet (.ok ⟨1⟩) ∈
        (main (sampleEnv (.flags none (some "127.0.0.1:4001") none (some "/tmp/x/node1") []))
          [.unit, .unit, .unit, .main, .main, .signal .SIGTERM]).trace ∧
      (main (sampleEnv (.flags none (some "127.0.0.1:4001") none (some "/tmp/x/node1") []))
          [.unit, .unit, .unit, .main, .main, .signal .SIGTERM]).trace.filter
        Event.isClusterNew =
        [Event.clusterNew "/tmp/x/node1" "127.0.0.1:4001" (.ListenAndServe ⟨1⟩) ⟨1⟩] :=
  ⟨by decide,
    (cluster_new_wiring
      (sampleEnv (.flags none (some "127.0.0.1:4001") none (some "/tmp/x/node1") []))
      [.unit, .unit, .unit, .main, .main, .signal .SIGTERM] none (some "127.0.0.1:4001") none
      (some "/tmp/x/node1") [] rfl ⟨1⟩ (by decide)).1.elim id
      (fun h => h.elim (fun h2 => absurd h2.1 (by decide)) (fun h2 => absurd h2.1 (by decide)))⟩

/-- C10, as stated, fails at the smallest `int`: with `-v -9223372036854775808` the
verbosity is not above zero, `debuglog.SetVerbose` receives `false`, and
`raft.SetLogLevel` receives `9223372036854775807`, which is not below zero. -/
theorem log_level_wraps_at_min_int :
    minInt = -9223372036854775808 ∧
      ((-9223372036854775808 : Int) ≤ 0) ∧
      (main (sampleEnv (.flags (some (-9223372036854775808)) none none none [])) []).trace.take 3 =
        [Event.flagParse, Event.setVerbose false, Event.setLogLevel 9223372036854775807] ∧
      ¬ ((9223372036854775807 : Int) < 0) := by
  decide

/-- The levels of C10 for `-v 0`: `SetVerbose(false)` and `SetLogLevel(-1)`. -/
theorem verbosity_levels_witness :
    minInt ≤ (0 : Int) ∧ (0 : Int) ≤ maxInt ∧
      ∃ b level rest,
        (main (sampleEnv (.flags (some 0) none none none [])) [.unit]).trace =
          Event.flagParse :: Event.setVerbose b :: Event.setLogLevel level :: rest ∧
        b = false ∧ level = -1 :=
  ⟨by decide, by decide,
    match verbosity_levels (sampleEnv (.flags (some 0) none none none [])) [.unit]
      (some 0) none none none rfl (by decide) (by decide) with
    | ⟨b, level, rest, htr, _, hb, hl, _, _⟩ =>
      ⟨b, level, rest, htr, hb (by decide), (hl (by decide) (by decide)).1⟩⟩

end Level4
